import Mathlib

/-!
# go-tproxy: transparent-proxy TCP sockets (`tproxy_tcp.go`)

A shallow embedding of `tproxy_tcp.go` and the properties of it that are
settled here.

Conventions of the embedding

* Go's `int`, `uintptr` and `byte` values are natural numbers or integers; a
  width is applied explicitly (`% 2 ^ w`) where the source converts or can wrap.
* A pointer that may be `nil` is an `Option`.
* A run-time panic (index out of range, nil dereference) is an explicit result.
* System calls and the other library calls with an effect are recorded, in
  order, in a trace; what each of them returns is decided by an environment
  that sees the trace so far, so that a statement quantified over the
  environment covers every behaviour of the operating system.
* The functions of the Go standard library that the source calls and that are
  pure (`IP.To4`, `IP.To16`, `copy`, `strconv.ParseUint`, `Time.Sub`,
  `syscall.NsecToTimeval`) are transcribed from the standard library.
-/

namespace Tproxy

/-! ## Constants of package `syscall` (linux) -/

def AF_INET : Int := 2
def AF_INET6 : Int := 10
def SOCK_STREAM : Int := 1
def IPPROTO_TCP : Int := 6
def SOL_IP : Int := 0
def SOL_SOCKET : Int := 1
def SO_REUSEADDR : Int := 2
def SO_ERROR : Int := 4
def SO_MARK : Int := 36
def IP_TRANSPARENT : Int := 19

def EINTR : Nat := 4
def EISCONN : Nat := 106
def EALREADY : Nat := 114
def EINPROGRESS : Nat := 115

/-! ## Run-time panics -/

/-- The two run-time panics the source can raise. -/
inductive Panic where
  | indexOutOfRange
  | nilDereference
  deriving DecidableEq, Repr

deriving instance DecidableEq for Except

/-! ## Errors -/

/-- The error kinds of `strconv.NumError`. -/
inductive NumErrKind where
  | ErrSyntax
  | ErrRange
  deriving DecidableEq, Repr

/-- The type `timeoutError` of the source: a struct without fields. -/
structure timeoutError where
  deriving DecidableEq, Repr

/-- Method `Error` of `timeoutError`. -/
def timeoutError.Error (_ : timeoutError) : String := "i/o timeout"

/-- Method `Timeout` of `timeoutError`. -/
def timeoutError.Timeout (_ : timeoutError) : Bool := true

/-- Method `Temporary` of `timeoutError`. -/
def timeoutError.Temporary (_ : timeoutError) : Bool := true

/-- The package variable `errTimeout`. -/
def errTimeout : timeoutError := {}

/-- The values of Go's `error` that occur in the source.  `errorf ctx e` stands
for `fmt.Errorf(ctx + ": %s", e)`: the cause is kept instead of its text. -/
inductive GoError where
  | errno (e : Nat)
  | timeout (e : timeoutError)
  | numError (func : String) (num : String) (kind : NumErrKind)
  | errorf (ctx : String) (cause : GoError)
  | opError (op : String) (net : String) (err : GoError)
  deriving DecidableEq, Repr

/-! ## Addresses -/

/-- A `net.TCPAddr`: the bytes of the IP, the port and the IPv6 zone. -/
structure TCPAddr where
  IP : List Nat
  Port : Int
  Zone : String
  deriving DecidableEq, Repr

/-- A `syscall.SockaddrInet4`; `Addr` holds the `[4]byte`. -/
structure SockaddrInet4 where
  Port : Int
  Addr : List Nat
  deriving DecidableEq, Repr

/-- A `syscall.SockaddrInet6`; `Addr` holds the `[16]byte`. -/
structure SockaddrInet6 where
  Port : Int
  ZoneId : Nat
  Addr : List Nat
  deriving DecidableEq, Repr

/-- The implementations of interface `syscall.Sockaddr` the source builds. -/
inductive Sockaddr where
  | inet4 (sa : SockaddrInet4)
  | inet6 (sa : SockaddrInet6)
  deriving DecidableEq, Repr

/-- Function `isZeros` of package `net`. -/
def isZeros (p : List Nat) : Bool := p.all (fun b => b == 0)

/-- Method `IP.To4` of package `net`; `none` is the nil slice. -/
def To4 (ip : List Nat) : Option (List Nat) :=
  if ip.length = 4 then some ip
  else if ip.length = 16 ∧ isZeros (ip.take 10) = true ∧ ip.get? 10 = some 0xff
      ∧ ip.get? 11 = some 0xff then some ((ip.drop 12).take 4)
  else none

/-- Method `IP.To16` of package `net`; `none` is the nil slice. -/
def To16 (ip : List Nat) : Option (List Nat) :=
  if ip.length = 4 then some ([0, 0, 0, 0, 0, 0, 0, 0, 0, 0, 0xff, 0xff] ++ ip)
  else if ip.length = 16 then some ip
  else none

/-- Go's builtin `copy(dst, src)`: the array `dst` after the call. -/
def copy (dst : List Nat) (src : Option (List Nat)) : List Nat :=
  let s := src.getD []
  let n := min dst.length s.length
  s.take n ++ dst.drop n

/-- Function `lower` of package `strconv`, on the code of a character. -/
def lower (c : Nat) : Nat := c ||| 0x20

/-- The loop of `strconv.ParseUint` for base 10 (so `base0` is false and the
cutoff is `maxUint64/10 + 1`), from the accumulator `n`. -/
def parseUintLoop (maxVal : Nat) : List Char → Nat → Nat × Option NumErrKind
  | [], n => (n, none)
  | c :: cs, n =>
    let d? : Option Nat :=
      if '0' ≤ c ∧ c ≤ '9' then some (c.toNat - 48)
      else if 97 ≤ lower c.toNat ∧ lower c.toNat ≤ 122 then some (lower c.toNat - 97 + 10)
      else none
    match d? with
    | none => (0, some NumErrKind.ErrSyntax)
    | some d =>
      if d ≥ 10 then (0, some NumErrKind.ErrSyntax)
      else if n ≥ (2 ^ 64 - 1) / 10 + 1 then (maxVal, some NumErrKind.ErrRange)
      else
        let n10 := n * 10
        let n1 := (n10 + d) % 2 ^ 64
        if n1 < n10 ∨ n1 > maxVal then (maxVal, some NumErrKind.ErrRange)
        else parseUintLoop maxVal cs n1

/-- The call `strconv.ParseUint(s, 10, bitSize)` for `1 ≤ bitSize ≤ 64`: the
value and the kind of the `*NumError`, if any.  The source string is walked
character by character: a byte of a character outside ASCII is neither a digit
nor a letter, as is the character itself here. -/
def ParseUint (s : String) (bitSize : Nat) : Nat × Option NumErrKind :=
  if s = "" then (0, some NumErrKind.ErrSyntax)
  else parseUintLoop (2 ^ bitSize - 1) s.toList 0

/-- Function `tcpAddrToSocketAddr` of the source. -/
def tcpAddrToSocketAddr (addr : TCPAddr) : Option Sockaddr × Option GoError :=
  if (To4 addr.IP).isSome then
    let ip := copy (List.replicate 4 0) (To4 addr.IP)
    (some (Sockaddr.inet4 { Addr := ip, Port := addr.Port }), none)
  else
    let ip := copy (List.replicate 16 0) (To16 addr.IP)
    match ParseUint addr.Zone 32 with
    | (_, some k) => (none, some (GoError.numError "ParseUint" addr.Zone k))
    | (zoneID, none) =>
      (some (Sockaddr.inet6 { Addr := ip, Port := addr.Port, ZoneId := zoneID % 2 ^ 32 }), none)

/-- Function `tcpAddrFamily` of the source.  `net[len(net)-1]` is the last byte
of the string; it equals `'4'` or `'6'` exactly when the last character does.
`laddr.IP` on a nil `laddr` is a nil dereference. -/
def tcpAddrFamily (net : String) (laddr raddr : Option TCPAddr) : Except Panic Int :=
  match net.toList.getLast? with
  | none => Except.error Panic.indexOutOfRange
  | some last =>
    if last = '4' then Except.ok AF_INET
    else if last = '6' then Except.ok AF_INET6
    else
      -- (laddr == nil || laddr.IP.To4() != nil)
      let left : Bool :=
        match laddr with
        | none => true
        | some l => (To4 l.IP).isSome
      if left = false then Except.ok AF_INET6
      else
        -- (raddr == nil || laddr.IP.To4() != nil)
        match raddr, laddr with
        | none, _ => Except.ok AF_INET
        | some _, none => Except.error Panic.nilDereference
        | some _, some l => if (To4 l.IP).isSome then Except.ok AF_INET else Except.ok AF_INET6

/-! ## Descriptor sets -/

/-- What package `syscall` fixes per architecture: the width in bits of
`uintptr` and of one word of `FdSet.Bits` (`[16]int64` on 64-bit linux,
`[32]int32` on 32-bit linux). -/
structure Platform where
  wordBits : Nat
  deriving DecidableEq, Repr

/-- The platform linux/amd64. -/
def linux_amd64 : Platform := { wordBits := 64 }

/-- The platform linux/386. -/
def linux_386 : Platform := { wordBits := 32 }

/-- The number of words of `FdSet.Bits`: room for 1024 descriptors. -/
def Platform.fdSetLen (P : Platform) : Nat := 1024 / P.wordBits

/-- The zero value of `syscall.FdSet`, as the list of the words of `Bits`. -/
def FdSet.zero (P : Platform) : List Nat := List.replicate P.fdSetLen 0

/-- Whether descriptor `d` is in the set, as `select` reads it: bit
`d mod wordBits` of word `d div wordBits`. -/
def FdSet.isSet (P : Platform) (p : List Nat) (d : Nat) : Bool :=
  (p.getD (d / P.wordBits) 0).testBit (d % P.wordBits)

/-- Function `FD_SET` of the source: the words of `p.Bits` after the call, or
the panic of the index expression `p.Bits[n]`. -/
def FD_SET (P : Platform) (fd : Nat) (p : List Nat) : Except Panic (List Nat) :=
  let n := fd / 32
  let k := fd % 32
  if n < p.length then
    Except.ok (p.set n ((p.getD n 0 ||| (1 <<< (k % 2 ^ 32))) % 2 ^ P.wordBits))
  else Except.error Panic.indexOutOfRange

/-! ## Time -/

/-- A signed machine integer of `bits` bits: the value of `x` after wrap-around. -/
def wrapSigned (bits : Nat) (x : Int) : Int :=
  (x + 2 ^ (bits - 1)) % 2 ^ bits - 2 ^ (bits - 1)

/-- A machine word read as unsigned: the conversions `uintptr(x)` and
`syscall.Errno(x)` of an `int`. -/
def toUintptr (P : Platform) (x : Int) : Nat := (x % 2 ^ P.wordBits).toNat

/-- A `syscall.Timeval`. -/
structure Timeval where
  Sec : Int
  Usec : Int
  deriving DecidableEq, Repr

/-- Method `Time.Sub` followed by `Duration.Nanoseconds`, on instants counted in
nanoseconds from the zero `Time`: the difference, saturated to an `int64`. -/
def timeSub (t u : Int) : Int :=
  if t - u < -(2 ^ 63) then -(2 ^ 63)
  else if t - u > 2 ^ 63 - 1 then 2 ^ 63 - 1
  else t - u

/-- Function `syscall.NsecToTimeval` (linux). -/
def NsecToTimeval (P : Platform) (nsec : Int) : Timeval :=
  let nsec := wrapSigned 64 (nsec + 999)
  let usec := Int.tdiv (Int.tmod nsec 1000000000) 1000
  let sec := Int.tdiv nsec 1000000000
  if usec < 0 then
    { Sec := wrapSigned P.wordBits (sec - 1), Usec := wrapSigned P.wordBits (usec + 1000000) }
  else { Sec := wrapSigned P.wordBits sec, Usec := wrapSigned P.wordBits usec }

/-! ## The operating system -/

/-- The calls with an effect that the source makes.  Descriptors, files,
listeners and connections are integers; an `os.File` is named by its
descriptor. -/
inductive Call where
  | Socket (domain typ proto : Int)
  | SetsockoptInt (fd level opt value : Int)
  | SetNonblock (fd : Int) (nonblocking : Bool)
  | Bind (fd : Int) (sa : Option Sockaddr)
  | Connect (fd : Int) (sa : Option Sockaddr)
  | Select (nfd : Int) (r w e : Option (List Nat)) (timeout : Option Timeval)
  | GetsockoptInt (fd level opt : Int)
  | Close (fd : Int)
  | Now
  | Println (e : GoError)
  | FileConn (file : Int)
  | FileClose (file : Int)
  | NetListenTCP (network : String) (laddr : Option TCPAddr)
  | ListenerFile (listener : Int)
  | ListenerClose (listener : Int)
  deriving DecidableEq, Repr

/-- What a call returns: a value (a descriptor, an object, a count, an option
value, the clock), an error, and for `Select` the write set as written back. -/
structure Resp where
  val : Int
  err : Option GoError
  fds : List Nat
  deriving DecidableEq, Repr

/-- The environment decides every answer from the calls made so far, the last
of which is the call answered; the trace lists the calls made, oldest first. -/
structure World where
  env : List Call → Resp
  trace : List Call

/-- The world before any call. -/
def World.init (env : List Call → Resp) : World := { env := env, trace := [] }

/-- One call: its answer and the world after it. -/
def World.call (w : World) (c : Call) : Resp × World :=
  (w.env (w.trace ++ [c]), { env := w.env, trace := w.trace ++ [c] })

/-- How a run of a function ends: it returns, it panics, or the bound on the
number of iterations of its loop is used up. -/
inductive Outcome (α : Type) where
  | returned (a : α)
  | panicked (p : Panic)
  | outOfFuel
  deriving DecidableEq, Repr

/-! ## The connect engine -/

/-- The statements `if !deadline.IsZero() && deadline.Before(time.Now())
{ return errTimeout }; return nil`, which the source has twice.  A `Time` is
its distance in nanoseconds from the zero `Time`; the clock is read only when
the deadline is not zero. -/
def deadlineCheck (deadline : Int) (w : World) : Outcome (Option GoError) × World :=
  if deadline = 0 then (Outcome.returned none, w)
  else if deadline < (w.call Call.Now).1.val then
    (Outcome.returned (some (GoError.timeout errTimeout)), (w.call Call.Now).2)
  else (Outcome.returned none, (w.call Call.Now).2)

/-- The statements `if !deadline.IsZero() { to = syscall.NsecToTimeval(
deadline.Sub(time.Now()).Nanoseconds()); toptr = &to }` at the head of the loop
of `connect`: the value of `toptr` after them.  `toptr` starts as nil and the
deadline does not change, so it is nil exactly when the deadline is zero. -/
def selectTimeout (P : Platform) (deadline : Int) (w : World) : Option Timeval × World :=
  if deadline = 0 then (none, w)
  else (some (NsecToTimeval P (timeSub deadline (w.call Call.Now).1.val)), (w.call Call.Now).2)

/-- The `for` loop of `connect`, for at most `fuel` iterations.  `pw` is the
descriptor set, which `Select` overwrites; `Select` of the source hands its
arguments to `syscall.Select`. -/
def connectLoop (P : Platform) (fd : Int) (deadline : Int) :
    Nat → List Nat → World → Outcome (Option GoError) × World
  | 0, _, w => (Outcome.outOfFuel, w)
  | fuel + 1, pw, w =>
    let t := selectTimeout P deadline w
    let s := t.2.call (Call.Select (fd + 1) none (some pw) none t.1)
    match s.1.err with
    | some e => (Outcome.returned (some e), (s.2.call (Call.Println e)).2)
    | none =>
      let g := s.2.call (Call.GetsockoptInt fd SOL_SOCKET SO_ERROR)
      match g.1.err with
      | some e => (Outcome.returned (some e), g.2)
      | none =>
        let nerr := toUintptr P g.1.val
        if nerr = EINPROGRESS ∨ nerr = EALREADY ∨ nerr = EINTR then
          connectLoop P fd deadline fuel s.1.fds g.2
        else if nerr = 0 ∨ nerr = EISCONN then deadlineCheck deadline g.2
        else (Outcome.returned (some (GoError.errno nerr)), g.2)

/-- Function `connect` of the source. -/
def connect (P : Platform) (fuel : Nat) (fd : Int) (ra : Option Sockaddr) (deadline : Int)
    (w : World) : Outcome (Option GoError) × World :=
  let c := w.call (Call.Connect fd ra)
  if c.1.err = some (GoError.errno EINPROGRESS) ∨ c.1.err = some (GoError.errno EALREADY)
      ∨ c.1.err = some (GoError.errno EINTR) then
    match FD_SET P (toUintptr P fd) (FdSet.zero P) with
    | Except.error p => (Outcome.panicked p, c.2)
    | Except.ok pw => connectLoop P fd deadline fuel pw c.2
  else if c.1.err = none ∨ c.1.err = some (GoError.errno EISCONN) then deadlineCheck deadline c.2
  else (Outcome.returned c.1.err, c.2)

/-! ## The transparent connection -/

/-- A `Conn` of the source, by what `DialOriginalDestination` reads of the
embedded `*net.TCPConn`: its local and its remote address. -/
structure Conn where
  LocalAddr : TCPAddr
  RemoteAddr : TCPAddr
  deriving DecidableEq, Repr

/-- The error `&net.OpError{Op: "dial", Err: fmt.Errorf(ctx + ": %s", err)}`. -/
def dialError (ctx : String) (err : GoError) : GoError :=
  GoError.opError "dial" "" (GoError.errorf ctx err)

/-- Method `Conn.DialOriginalDestination` of the source: the connection
returned (nil is `none`) and the error.  The name given to `os.NewFile`, a
label, is left out; the file is named by its descriptor. -/
def DialOriginalDestination (P : Platform) (fuel : Nat) (conn : Conn) (dontAssumeRemote : Bool)
    (w : World) : Outcome (Option Int × Option GoError) × World :=
  match tcpAddrToSocketAddr conn.LocalAddr with
  | (_, some e) =>
    (Outcome.returned (none, some (dialError "build destination socket address" e)), w)
  | (remoteSocketAddress, none) =>
  match tcpAddrToSocketAddr conn.RemoteAddr with
  | (_, some e) => (Outcome.returned (none, some (dialError "build local socket address" e)), w)
  | (localSocketAddress, none) =>
  match tcpAddrFamily "tcp" (some conn.LocalAddr) (some conn.RemoteAddr) with
  | Except.error p => (Outcome.panicked p, w)
  | Except.ok family =>
  let s := w.call (Call.Socket family SOCK_STREAM IPPROTO_TCP)
  match s.1.err with
  | some e => (Outcome.returned (none, some (dialError "socket open" e)), s.2)
  | none =>
  let fileDescriptor := s.1.val
  let o1 := s.2.call (Call.SetsockoptInt fileDescriptor SOL_SOCKET SO_REUSEADDR 1)
  match o1.1.err with
  | some e =>
    (Outcome.returned (none, some (dialError "set socket option: SO_REUSEADDR" e)),
      (o1.2.call (Call.Close fileDescriptor)).2)
  | none =>
  let o2 := o1.2.call (Call.SetsockoptInt fileDescriptor SOL_SOCKET SO_MARK 255)
  match o2.1.err with
  | some e =>
    (Outcome.returned (none, some (dialError "set socket option: SO_MARK" e)),
      (o2.2.call (Call.Close fileDescriptor)).2)
  | none =>
  let o3 := o2.2.call (Call.SetsockoptInt fileDescriptor SOL_IP IP_TRANSPARENT 1)
  match o3.1.err with
  | some e =>
    (Outcome.returned (none, some (dialError "set socket option: IP_TRANSPARENT" e)),
      (o3.2.call (Call.Close fileDescriptor)).2)
  | none =>
  let o4 := o3.2.call (Call.SetNonblock fileDescriptor true)
  match o4.1.err with
  | some e =>
    (Outcome.returned (none, some (dialError "set socket option: SO_NONBLOCK" e)),
      (o4.2.call (Call.Close fileDescriptor)).2)
  | none =>
  let b : Option GoError × World :=
    if dontAssumeRemote = false then
      let r := o4.2.call (Call.Bind fileDescriptor localSocketAddress)
      (r.1.err, r.2)
    else (none, o4.2)
  match b.1 with
  | some e =>
    (Outcome.returned (none, some (dialError "socket bind" e)),
      (b.2.call (Call.Close fileDescriptor)).2)
  | none =>
  match connect P fuel fileDescriptor remoteSocketAddress 0 b.2 with
  | (Outcome.outOfFuel, w1) => (Outcome.outOfFuel, w1)
  | (Outcome.panicked p, w1) => (Outcome.panicked p, w1)
  | (Outcome.returned (some e), w1) =>
    (Outcome.returned (none, some (dialError "socket connect" e)),
      (w1.call (Call.Close fileDescriptor)).2)
  | (Outcome.returned none, w1) =>
  -- fdFile := os.NewFile(...); defer fdFile.Close()
  let f := w1.call (Call.FileConn fileDescriptor)
  match f.1.err with
  | some e =>
    (Outcome.returned (none, some (dialError "convert file descriptor to connection" e)),
      ((f.2.call (Call.Close fileDescriptor)).2.call (Call.FileClose fileDescriptor)).2)
  | none => (Outcome.returned (some f.1.val, none), (f.2.call (Call.FileClose fileDescriptor)).2)

/-! ## The transparent listener -/

/-- A `Listener` of the source: the listener it wraps. -/
structure Listener where
  base : Int
  deriving DecidableEq, Repr

/-- Method `Listener.Close` of the source. -/
def Listener.Close (listener : Listener) (w : World) : Option GoError × World :=
  let r := w.call (Call.ListenerClose listener.base)
  (r.1.err, r.2)

/-- The error `&net.OpError{Op: "listen", Net: network, Source: nil, Addr:
laddr, Err: fmt.Errorf(ctx + ": %s", err)}`; the address is left out. -/
def listenError (network : String) (ctx : String) (err : GoError) : GoError :=
  GoError.opError "listen" network (GoError.errorf ctx err)

/-- Function `ListenTCP` of the source: the listener returned (nil is `none`)
and the error.  The deferred `fileDescriptorSource.Close()` runs when the
function returns, whichever way. -/
def ListenTCP (network : String) (laddr : Option TCPAddr) (w : World) :
    (Option Listener × Option GoError) × World :=
  let l := w.call (Call.NetListenTCP network laddr)
  match l.1.err with
  | some e => ((none, some e), l.2)
  | none =>
  let listener := l.1.val
  let f := l.2.call (Call.ListenerFile listener)
  match f.1.err with
  | some e => ((none, some (listenError network "get file descriptor" e)), f.2)
  | none =>
  let fileDescriptorSource := f.1.val
  let o := f.2.call (Call.SetsockoptInt fileDescriptorSource SOL_IP IP_TRANSPARENT 1)
  match o.1.err with
  | some e =>
    ((none, some (listenError network "set socket option: IP_TRANSPARENT" e)),
      (o.2.call (Call.FileClose fileDescriptorSource)).2)
  | none => ((some { base := listener }, none), (o.2.call (Call.FileClose fileDescriptorSource)).2)

/-! ## Notions used in the statements, and sample environments -/

/-- The world `w2` is reached from `w1` by making calls: the environment is
the same and the trace is longer. -/
def World.Extends (w1 w2 : World) : Prop :=
  w2.env = w1.env ∧ ∃ rest, w2.trace = w1.trace ++ rest

/-- Whether a call is a `Bind`. -/
def Call.isBind : Call → Bool
  | Call.Bind _ _ => true
  | _ => false

/-- Whether a call is a `Connect`. -/
def Call.isConnect : Call → Bool
  | Call.Connect _ _ => true
  | _ => false

/-- Whether a call is one of those the loop of `connect` makes: reading the
clock, `Select`, reading `SO_ERROR`, printing an error. -/
def Call.isPoll : Call → Bool
  | Call.Now => true
  | Call.Select _ _ _ _ _ => true
  | Call.GetsockoptInt _ _ _ => true
  | Call.Println _ => true
  | _ => false

/-- The world `w2` is reached from `w1` by making calls that all satisfy `q`. -/
def World.ExtendsBy (q : Call → Bool) (w1 w2 : World) : Prop :=
  w2.env = w1.env ∧ ∃ rest, w2.trace = w1.trace ++ rest ∧ ∀ c ∈ rest, q c = true

/-- The trace `t` of a run of `connect` ends with a success reported to it and
the reading of the clock that follows: the `Connect` itself answered nil or
`EISCONN`, or a reading of `SO_ERROR` answered 0 or `EISCONN`. -/
def SuccessReported (P : Platform) (env : List Call → Resp) (fd : Int) (ra : Option Sockaddr)
    (t : List Call) : Prop :=
  ∃ pre c, t = pre ++ [c, Call.Now] ∧
    ((c = Call.Connect fd ra ∧
        ((env (pre ++ [c])).err = none ∨ (env (pre ++ [c])).err = some (GoError.errno EISCONN))) ∨
      (c = Call.GetsockoptInt fd SOL_SOCKET SO_ERROR ∧ (env (pre ++ [c])).err = none ∧
        (toUintptr P (env (pre ++ [c])).val = 0 ∨ toUintptr P (env (pre ++ [c])).val = EISCONN)))

/-- The trace `t` of a run of `connect` ends with the call that reported the
error `e`: the `Connect` itself, a `Select` (whose error is then printed), or a
reading of `SO_ERROR` that failed or answered a pending error other than 0 and
`EISCONN`. -/
def FailureReported (P : Platform) (env : List Call → Resp) (fd : Int) (ra : Option Sockaddr)
    (t : List Call) (e : GoError) : Prop :=
  (∃ pre, t = pre ++ [Call.Connect fd ra] ∧ (env t).err = some e) ∨
  (∃ pre pw tv, t = pre ++ [Call.Select (fd + 1) none (some pw) none tv, Call.Println e] ∧
    (env (pre ++ [Call.Select (fd + 1) none (some pw) none tv])).err = some e) ∨
  (∃ pre, t = pre ++ [Call.GetsockoptInt fd SOL_SOCKET SO_ERROR] ∧
    ((env t).err = some e ∨
      ((env t).err = none ∧ e = GoError.errno (toUintptr P (env t).val) ∧
        toUintptr P (env t).val ≠ 0 ∧ toUintptr P (env t).val ≠ EISCONN)))

/-- The four settings of the dialing socket, in the order in which the
specification names them. -/
def socketOptions (fd : Int) : List Call :=
  [Call.SetsockoptInt fd SOL_SOCKET SO_REUSEADDR 1,
   Call.SetsockoptInt fd SOL_SOCKET SO_MARK 255,
   Call.SetsockoptInt fd SOL_IP IP_TRANSPARENT 1,
   Call.SetNonblock fd true]

/-- An environment in which every call succeeds; descriptors and objects are
numbered 3 and the clock reads 100. -/
def envAllOk : List Call → Resp := fun t =>
  match t.getLast? with
  | some Call.Now => { val := 100, err := none, fds := [] }
  | _ => { val := 3, err := none, fds := [] }

/-- An environment in which `Connect` fails with `ECONNREFUSED` (111) and
every other call succeeds; the clock reads 100. -/
def envConnectRefused : List Call → Resp := fun t =>
  match t.getLast? with
  | some (Call.Connect _ _) => { val := 0, err := some (GoError.errno 111), fds := [] }
  | some Call.Now => { val := 100, err := none, fds := [] }
  | _ => { val := 3, err := none, fds := [] }

/-- An environment in which `Connect` answers `EINPROGRESS`, as it does on a
non-blocking socket, the pending error read from `SO_ERROR` is 0, and every
other call succeeds; descriptors and objects are numbered 3. -/
def envInProgress : List Call → Resp := fun t =>
  match t.getLast? with
  | some (Call.Connect _ _) => { val := 0, err := some (GoError.errno EINPROGRESS), fds := [] }
  | some (Call.GetsockoptInt _ _ _) => { val := 0, err := none, fds := [] }
  | some (Call.Select _ _ w _ _) => { val := 1, err := none, fds := w.getD [] }
  | some Call.Now => { val := 100, err := none, fds := [] }
  | _ => { val := 3, err := none, fds := [] }

/-- An environment in which setting a socket option fails with `EPERM` (1) and
every other call succeeds: the listener is object 5 and its file is 7. -/
def envSetsockoptFails : List Call → Resp := fun t =>
  match t.getLast? with
  | some (Call.SetsockoptInt _ _ _ _) => { val := 0, err := some (GoError.errno 1), fds := [] }
  | some (Call.NetListenTCP _ _) => { val := 5, err := none, fds := [] }
  | some (Call.ListenerFile _) => { val := 7, err := none, fds := [] }
  | _ => { val := 3, err := none, fds := [] }

/-- The connection of the scenario of the specification: the client
10.0.0.5:51000 was on its way to 93.184.216.34:443. -/
def scenarioConn : Conn :=
  { LocalAddr := { IP := [93, 184, 216, 34], Port := 443, Zone := "" },
    RemoteAddr := { IP := [10, 0, 0, 5], Port := 51000, Zone := "" } }

/-- The value of a string of decimal digits, as the specification reads a
numeric zone: the digits in base ten, most significant first. -/
def decimalValue (s : String) : Nat :=
  s.toList.foldl (fun n c => 10 * n + (c.toNat - 48)) 0

/-! ## Lemmas on `strconv.ParseUint` -/

theorem digit_iff (c : Char) : ('0' ≤ c ∧ c ≤ '9') ↔ c.isDigit = true := by
  simp [Char.isDigit, Char.le_def]

theorem digit_value_lt (c : Char) (h : c.isDigit = true) : c.toNat - 48 < 10 := by
  simp [Char.isDigit] at h
  have h2 := h.2
  have : c.toNat ≤ 57 := by
    simpa [Char.toNat, UInt32.le_def] using h2
  omega

theorem le_foldl_decimal (cs : List Char) (n : Nat) :
    n ≤ cs.foldl (fun n c => 10 * n + (c.toNat - 48)) n := by
  induction cs generalizing n with
  | nil => simp
  | cons c cs ih =>
    simp only [List.foldl_cons]
    exact le_trans (by omega) (ih _)

/-- A character that is not a decimal digit makes the loop fail. -/
theorem parseUintLoop_nondigit (m : Nat) (cs : List Char) (n : Nat)
    (h : ∃ c ∈ cs, c.isDigit = false) : (parseUintLoop m cs n).2 ≠ none := by
  induction cs generalizing n with
  | nil => simp at h
  | cons c cs ih =>
    unfold parseUintLoop
    by_cases hc : c.isDigit = true
    · have hc2 := (digit_iff c).2 hc
      have hd := digit_value_lt c hc
      have htail : ∃ c ∈ cs, c.isDigit = false := by
        obtain ⟨x, hx, hxd⟩ := h
        rcases List.mem_cons.1 hx with rfl | hx
        · simp [hc] at hxd
        · exact ⟨x, hx, hxd⟩
      simp only [hc2, and_self, if_true]
      split_ifs
      · simp
      · simp
      · simp
      · exact ih _ htail
    · have hc2 : ¬ ('0' ≤ c ∧ c ≤ '9') := fun hh => hc ((digit_iff c).1 hh)
      by_cases hl : 97 ≤ lower c.toNat ∧ lower c.toNat ≤ 122
      · simp [hc2, hl]
      · simp [hc2, hl]

/-- On decimal digits whose value fits below `m`, the loop returns the value. -/
theorem parseUintLoop_digits (m : Nat) (hm : m < 2 ^ 32) (cs : List Char) (n : Nat)
    (hd : ∀ c ∈ cs, c.isDigit = true)
    (hv : cs.foldl (fun n c => 10 * n + (c.toNat - 48)) n ≤ m) :
    parseUintLoop m cs n = (cs.foldl (fun n c => 10 * n + (c.toNat - 48)) n, none) := by
  induction cs generalizing n with
  | nil => simp [parseUintLoop]
  | cons c cs ih =>
    have hc := hd c (List.mem_cons_self _ _)
    have hc2 := (digit_iff c).2 hc
    have hdv := digit_value_lt c hc
    simp only [List.foldl_cons] at hv ⊢
    have h1 := le_foldl_decimal cs (10 * n + (c.toNat - 48))
    have hn1 : 10 * n + (c.toNat - 48) ≤ m := le_trans h1 hv
    unfold parseUintLoop
    simp only [hc2, and_self, if_true]
    have hmod : (n * 10 + (c.toNat - 48)) % 2 ^ 64 = 10 * n + (c.toNat - 48) := by
      rw [Nat.mod_eq_of_lt (by omega)]; omega
    have e1 : ¬ (c.toNat - 48 ≥ 10) := by omega
    have e2 : ¬ (n ≥ (2 ^ 64 - 1) / 10 + 1) := by norm_num; omega
    simp only [e1, e2, if_false, hmod]
    have e3 : ¬ (10 * n + (c.toNat - 48) < n * 10 ∨ 10 * n + (c.toNat - 48) > m) := by omega
    simp only [e3, if_false]
    exact ih _ (fun x hx => hd x (List.mem_cons_of_mem _ hx)) hv

/-! ## The socket address translator -/

theorem To4_length (ip v4 : List Nat) (h : To4 ip = some v4) : v4.length = 4 := by
  unfold To4 at h
  split_ifs at h with h4 h16
  · cases h; exact h4
  · cases h
    simp [List.length_take, List.length_drop, h16.1]

theorem tcpAddrToSocketAddr_of_To4 (addr : TCPAddr) (v4 : List Nat) (h : To4 addr.IP = some v4) :
    tcpAddrToSocketAddr addr
      = (some (Sockaddr.inet4 { Port := addr.Port, Addr := v4 }), none) := by
  have hl := To4_length _ _ h
  simp [tcpAddrToSocketAddr, h, copy, hl]

/-- C6: a TCP address whose IP has 4 bytes, or has 16 bytes of which the first
twelve are the IPv4-mapped prefix, is translated without error, whatever its
zone, to a `SockaddrInet4` whose address is the 4-byte form of the IP (`To4`)
and whose port is the port of the address. -/
theorem tcpAddrToSocketAddr_ipv4 (addr : TCPAddr)
    (h : addr.IP.length = 4 ∨
      (addr.IP.length = 16 ∧ addr.IP.take 12 = [0, 0, 0, 0, 0, 0, 0, 0, 0, 0, 0xff, 0xff])) :
    ∃ v4 : List Nat,
      v4 = (if addr.IP.length = 4 then addr.IP else addr.IP.drop 12) ∧
      v4.length = 4 ∧
      To4 addr.IP = some v4 ∧
      tcpAddrToSocketAddr addr
        = (some (Sockaddr.inet4 { Port := addr.Port, Addr := v4 }), none) := by
  have hto : To4 addr.IP = some (if addr.IP.length = 4 then addr.IP else addr.IP.drop 12) := by
    rcases h with h4 | ⟨h16, hp⟩
    · simp [To4, h4]
    · have h10 : addr.IP.take 10 = [0, 0, 0, 0, 0, 0, 0, 0, 0, 0] := by
        have := congrArg (List.take 10) hp
        simpa [List.take_take] using this
      have g10 : addr.IP.get? 10 = some 255 := by
        have := congrArg (fun l => l.get? 10) hp
        simpa [List.getElem?_take_of_lt] using this
      have g11 : addr.IP.get? 11 = some 255 := by
        have := congrArg (fun l => l.get? 11) hp
        simpa [List.getElem?_take_of_lt] using this
      have hne : ¬ addr.IP.length = 4 := by omega
      have ht : (addr.IP.drop 12).take 4 = addr.IP.drop 12 := by
        apply List.take_of_length_le
        simp [h16]
      have hz : isZeros (List.take 10 addr.IP) = true := by rw [h10]; decide
      unfold To4
      rw [if_neg hne, if_pos ⟨h16, hz, g10, g11⟩, ht, if_neg hne]
  exact ⟨_, rfl, To4_length _ _ hto, hto, tcpAddrToSocketAddr_of_To4 _ _ hto⟩

theorem tcpAddrToSocketAddr_ipv4_witness :
    ∃ v4 : List Nat,
      v4 = (if (TCPAddr.mk [0, 0, 0, 0, 0, 0, 0, 0, 0, 0, 0xff, 0xff, 93, 184, 216, 34] 443
          "eth0").IP.length = 4
        then (TCPAddr.mk [0, 0, 0, 0, 0, 0, 0, 0, 0, 0, 0xff, 0xff, 93, 184, 216, 34] 443 "eth0").IP
        else (TCPAddr.mk [0, 0, 0, 0, 0, 0, 0, 0, 0, 0, 0xff, 0xff, 93, 184, 216, 34] 443
          "eth0").IP.drop 12) ∧
      v4.length = 4 ∧
      To4 (TCPAddr.mk [0, 0, 0, 0, 0, 0, 0, 0, 0, 0, 0xff, 0xff, 93, 184, 216, 34] 443 "eth0").IP
        = some v4 ∧
      tcpAddrToSocketAddr
          (TCPAddr.mk [0, 0, 0, 0, 0, 0, 0, 0, 0, 0, 0xff, 0xff, 93, 184, 216, 34] 443 "eth0")
        = (some (Sockaddr.inet4 { Port := 443, Addr := v4 }), none) :=
  tcpAddrToSocketAddr_ipv4
    (TCPAddr.mk [0, 0, 0, 0, 0, 0, 0, 0, 0, 0, 0xff, 0xff, 93, 184, 216, 34] 443 "eth0")
    (Or.inr ⟨by decide, by decide⟩)

/-- C7: a TCP address whose IP is not IPv4-mappable (`To4` is nil) and whose
zone is empty or has a character that is not a decimal digit is translated to
an error and no socket address. -/
theorem tcpAddrToSocketAddr_ipv6_bad_zone (addr : TCPAddr) (h6 : To4 addr.IP = none)
    (hz : addr.Zone = "" ∨ ∃ c ∈ addr.Zone.toList, c.isDigit = false) :
    ∃ e : GoError, tcpAddrToSocketAddr addr = (none, some e) := by
  have hp : (ParseUint addr.Zone 32).2 ≠ none := by
    unfold ParseUint
    by_cases he : addr.Zone = ""
    · simp [he]
    · rcases hz with hz | hz
      · exact absurd hz he
      · simp only [he, if_false]
        exact parseUintLoop_nondigit _ _ _ hz
  unfold tcpAddrToSocketAddr
  simp only [h6, Option.isSome_none, Bool.false_eq_true, if_false]
  rcases hparse : ParseUint addr.Zone 32 with ⟨v, _ | k⟩
  · rw [hparse] at hp; simp at hp
  · exact ⟨_, rfl⟩

theorem tcpAddrToSocketAddr_ipv6_bad_zone_witness :
    ∃ e : GoError,
      tcpAddrToSocketAddr
          (TCPAddr.mk [0xfe, 0x80, 0, 0, 0, 0, 0, 0, 0, 0, 0, 0, 0, 0, 0, 1] 443 "eth0")
        = (none, some e) :=
  tcpAddrToSocketAddr_ipv6_bad_zone
    (TCPAddr.mk [0xfe, 0x80, 0, 0, 0, 0, 0, 0, 0, 0, 0, 0, 0, 0, 0, 1] 443 "eth0")
    (by decide) (Or.inr ⟨'e', by decide, by decide⟩)

/-- C8, as stated, fails: the zone `4294967296` is a string of decimal digits,
and the translation of a 16-byte IPv6 address with that zone is an error. -/
theorem tcpAddrToSocketAddr_ipv6_zone_out_of_range :
    To4 [0xfe, 0x80, 0, 0, 0, 0, 0, 0, 0, 0, 0, 0, 0, 0, 0, 1] = none ∧
    (∀ c ∈ "4294967296".toList, c.isDigit = true) ∧
    tcpAddrToSocketAddr
        (TCPAddr.mk [0xfe, 0x80, 0, 0, 0, 0, 0, 0, 0, 0, 0, 0, 0, 0, 0, 1] 443 "4294967296")
      = (none, some (GoError.numError "ParseUint" "4294967296" NumErrKind.ErrRange)) := by
  refine ⟨by decide, by decide, by decide⟩

/-- C8, amended: a TCP address whose IP has 16 bytes and is not IPv4-mappable,
and whose zone is a non-empty string of decimal digits of value below `2^32`,
is translated without error to a `SockaddrInet6` whose address is the IP, whose
port is the port of the address and whose `ZoneId` is the value of the zone. -/
theorem tcpAddrToSocketAddr_ipv6_numeric_zone (addr : TCPAddr) (h6 : To4 addr.IP = none)
    (hlen : addr.IP.length = 16) (hne : addr.Zone ≠ "")
    (hd : ∀ c ∈ addr.Zone.toList, c.isDigit = true) (hv : decimalValue addr.Zone < 2 ^ 32) :
    tcpAddrToSocketAddr addr
      = (some (Sockaddr.inet6
          { Port := addr.Port, ZoneId := decimalValue addr.Zone, Addr := addr.IP }), none) := by
  have hp : ParseUint addr.Zone 32 = (decimalValue addr.Zone, none) := by
    unfold ParseUint
    simp only [hne, if_false]
    exact parseUintLoop_digits _ (by norm_num) _ _ hd (by unfold decimalValue at hv; omega)
  have h16 : To16 addr.IP = some addr.IP := by
    simp [To16, hlen]
  unfold tcpAddrToSocketAddr
  simp only [h6, Option.isSome_none, Bool.false_eq_true, if_false, hp, h16]
  simp [copy, hlen, Nat.mod_eq_of_lt hv]
  simpa using hv

theorem tcpAddrToSocketAddr_ipv6_numeric_zone_witness :
    tcpAddrToSocketAddr
        (TCPAddr.mk [0xfe, 0x80, 0, 0, 0, 0, 0, 0, 0, 0, 0, 0, 0, 0, 0, 1] 443 "12")
      = (some (Sockaddr.inet6
          { Port := 443, ZoneId := decimalValue "12",
            Addr := [0xfe, 0x80, 0, 0, 0, 0, 0, 0, 0, 0, 0, 0, 0, 0, 0, 1] }), none) :=
  tcpAddrToSocketAddr_ipv6_numeric_zone
    (TCPAddr.mk [0xfe, 0x80, 0, 0, 0, 0, 0, 0, 0, 0, 0, 0, 0, 0, 0, 1] 443 "12")
    (by decide) (by decide) (by decide) (by decide) (by decide)

/-! ## The address family resolver -/

/-- C9, on the code: for the IPv4 address 10.0.0.5:51000 and the network `tcp`,
the family is `AF_INET` when the address is the local one and the remote one is
nil, and the call panics with a nil dereference when the address is the remote
one and the local one is nil. -/
theorem tcpAddrFamily_remote_only_panics :
    tcpAddrFamily "tcp" (some (TCPAddr.mk [10, 0, 0, 5] 51000 "")) none = Except.ok AF_INET ∧
    tcpAddrFamily "tcp" none (some (TCPAddr.mk [10, 0, 0, 5] 51000 ""))
      = Except.error Panic.nilDereference := by
  refine ⟨by decide, by decide⟩

/-- Whatever the remote address, with a nil local address and a network that
does not end in `4` or `6` the resolver panics. -/
theorem tcpAddrFamily_nil_local (net : String) (last : Char) (raddr : TCPAddr)
    (hl : net.toList.getLast? = some last) (h4 : last ≠ '4') (h6 : last ≠ '6') :
    tcpAddrFamily net none (some raddr) = Except.error Panic.nilDereference := by
  unfold tcpAddrFamily
  rw [hl]
  simp [h4, h6]

/-- With a nil remote address and a network that does not end in `4` or `6`,
the family of an IPv4 local address is `AF_INET`. -/
theorem tcpAddrFamily_nil_remote (net : String) (last : Char) (laddr : TCPAddr) (v4 : List Nat)
    (hl : net.toList.getLast? = some last) (h4 : last ≠ '4') (h6 : last ≠ '6')
    (ha : To4 laddr.IP = some v4) :
    tcpAddrFamily net (some laddr) none = Except.ok AF_INET := by
  unfold tcpAddrFamily
  rw [hl]
  simp [h4, h6, ha]

/-! ## Descriptor sets -/

/-- C10, on the code for linux/amd64: `FD_SET(32, p)` on the empty set leaves
descriptor 32 out and puts descriptor 64 in, and `FD_SET(512, p)` panics on the
index, although 512 is below the capacity 1024. -/
theorem FD_SET_amd64_wrong_descriptor :
    (∃ p : List Nat, FD_SET linux_amd64 32 (FdSet.zero linux_amd64) = Except.ok p ∧
      FdSet.isSet linux_amd64 p 32 = false ∧ FdSet.isSet linux_amd64 p 64 = true) ∧
    FD_SET linux_amd64 512 (FdSet.zero linux_amd64) = Except.error Panic.indexOutOfRange := by
  refine ⟨⟨[0, 1, 0, 0, 0, 0, 0, 0, 0, 0, 0, 0, 0, 0, 0, 0], by decide, by decide, by decide⟩,
    by decide⟩

/-- On linux/386, where a word of `FdSet.Bits` has 32 bits, `FD_SET` does add
the descriptor and nothing else: the constants 32 of the source are those of
this layout. -/
theorem FD_SET_386 (fd : Nat) (p : List Nat) (hfd : fd < 1024) (hlen : p.length = 32)
    (hw : ∀ i, p.getD i 0 < 2 ^ 32) :
    ∃ q, FD_SET linux_386 fd p = Except.ok q ∧ FdSet.isSet linux_386 q fd = true ∧
      ∀ d, d ≠ fd → FdSet.isSet linux_386 q d = FdSet.isSet linux_386 p d := by
  have hn : fd / 32 < p.length := by omega
  have hk : fd % 32 % 2 ^ 32 = fd % 32 := Nat.mod_eq_of_lt (by omega)
  have hlt : (p.getD (fd / 32) 0 ||| 1 <<< (fd % 32)) < 2 ^ 32 := by
    apply Nat.or_lt_two_pow (hw _)
    rw [Nat.one_shiftLeft]
    exact Nat.pow_lt_pow_right (by norm_num) (Nat.mod_lt _ (by norm_num))
  refine ⟨p.set (fd / 32) (p.getD (fd / 32) 0 ||| 1 <<< (fd % 32)), ?_, ?_, ?_⟩
  · unfold FD_SET
    simp only [hn, if_true, hk]
    rw [show linux_386.wordBits = 32 from rfl, Nat.mod_eq_of_lt hlt]
  · unfold FdSet.isSet
    rw [show linux_386.wordBits = 32 from rfl]
    simp [List.getD_eq_getElem?_getD, List.getElem?_set, hn, Nat.testBit_or, Nat.one_shiftLeft,
      Nat.testBit_two_pow_self]
  · intro d hd
    unfold FdSet.isSet
    rw [show linux_386.wordBits = 32 from rfl]
    by_cases hq : d / 32 = fd / 32
    · have hr : fd % 32 ≠ d % 32 := by omega
      simp [List.getD_eq_getElem?_getD, List.getElem?_set, hn, hq, Nat.testBit_or,
        Nat.one_shiftLeft, Nat.testBit_two_pow, hr]
    · have hq' : fd / 32 ≠ d / 32 := fun h => hq h.symm
      simp [List.getD_eq_getElem?_getD, List.getElem?_set, hq']

/-! ## The connect engine -/

@[simp] theorem World.call_env (w : World) (c : Call) : (w.call c).2.env = w.env := rfl

@[simp] theorem World.call_trace (w : World) (c : Call) :
    (w.call c).2.trace = w.trace ++ [c] := rfl

@[simp] theorem World.call_resp (w : World) (c : Call) :
    (w.call c).1 = w.env (w.trace ++ [c]) := rfl

theorem World.Extends.refl (w : World) : w.Extends w := ⟨rfl, [], by simp⟩

theorem World.Extends.trans {w1 w2 w3 : World} (h12 : w1.Extends w2) (h23 : w2.Extends w3) :
    w1.Extends w3 := by
  obtain ⟨e12, r12, t12⟩ := h12
  obtain ⟨e23, r23, t23⟩ := h23
  exact ⟨e23.trans e12, r12 ++ r23, by rw [t23, t12, List.append_assoc]⟩

theorem World.Extends.call (w : World) (c : Call) : w.Extends (w.call c).2 :=
  ⟨rfl, [c], rfl⟩

theorem deadlineCheck_extends (deadline : Int) (w : World) :
    w.Extends (deadlineCheck deadline w).2 := by
  unfold deadlineCheck
  split_ifs
  · exact World.Extends.refl w
  · exact World.Extends.call w _
  · exact World.Extends.call w _

theorem selectTimeout_extends (P : Platform) (deadline : Int) (w : World) :
    w.Extends (selectTimeout P deadline w).2 := by
  unfold selectTimeout
  split_ifs
  · exact World.Extends.refl w
  · exact World.Extends.call w _

/-- With a deadline that is not zero and lies before every reading of the
clock, the deadline check returns the timeout error. -/
theorem deadlineCheck_past (deadline : Int) (w : World) (hz : deadline ≠ 0)
    (hpast : ∀ t, deadline < (w.env (t ++ [Call.Now])).val) :
    (deadlineCheck deadline w).1 = Outcome.returned (some (GoError.timeout errTimeout)) := by
  unfold deadlineCheck
  simp [hz, hpast]

/-- With a zero deadline the deadline check returns nil and makes no call. -/
theorem deadlineCheck_zero (w : World) : deadlineCheck 0 w = (Outcome.returned none, w) := by
  simp [deadlineCheck]

theorem connectLoop_extends (P : Platform) (fd deadline : Int) (fuel : Nat) (pw : List Nat)
    (w : World) : w.Extends (connectLoop P fd deadline fuel pw w).2 := by
  induction fuel generalizing pw w with
  | zero => exact World.Extends.refl w
  | succ fuel ih =>
    have h0 := selectTimeout_extends P deadline w
    unfold connectLoop
    simp only
    generalize selectTimeout P deadline w = t at h0 ⊢
    have h1 := h0.trans (World.Extends.call t.2 (Call.Select (fd + 1) none (some pw) none t.1))
    generalize t.2.call (Call.Select (fd + 1) none (some pw) none t.1) = s at h1 ⊢
    split
    · exact h1.trans (World.Extends.call _ _)
    · have h2 := h1.trans (World.Extends.call s.2 (Call.GetsockoptInt fd SOL_SOCKET SO_ERROR))
      generalize s.2.call (Call.GetsockoptInt fd SOL_SOCKET SO_ERROR) = g at h2 ⊢
      split
      · exact h2
      · split_ifs
        · exact h2.trans (ih _ _)
        · exact h2.trans (deadlineCheck_extends _ _)
        · exact h2

/-- The calls of `connect` are added at the end of the trace, the first of
them being the `Connect` itself. -/
theorem connect_trace (P : Platform) (fuel : Nat) (fd : Int) (ra : Option Sockaddr)
    (deadline : Int) (w : World) :
    ∃ rest, (connect P fuel fd ra deadline w).2.trace = w.trace ++ Call.Connect fd ra :: rest := by
  have key : (w.call (Call.Connect fd ra)).2.Extends (connect P fuel fd ra deadline w).2 := by
    unfold connect
    simp only
    split_ifs
    · split
      · exact World.Extends.refl _
      · exact connectLoop_extends _ _ _ _ _ _
    · exact deadlineCheck_extends _ _
    · exact World.Extends.refl _
  obtain ⟨_, rest, hr⟩ := key
  exact ⟨rest, by rw [hr]; simp⟩

/-- With a deadline that is not zero and lies before every reading of the
clock, the loop of `connect` never returns nil. -/
theorem connectLoop_past_ne_nil (P : Platform) (fd deadline : Int) (hz : deadline ≠ 0)
    (fuel : Nat) (pw : List Nat) (w : World)
    (hpast : ∀ t, deadline < (w.env (t ++ [Call.Now])).val) :
    (connectLoop P fd deadline fuel pw w).1 ≠ Outcome.returned none := by
  induction fuel generalizing pw w with
  | zero => simp [connectLoop]
  | succ fuel ih =>
    have h0 := selectTimeout_extends P deadline w
    unfold connectLoop
    simp only
    generalize selectTimeout P deadline w = t at h0 ⊢
    have h1 := h0.trans (World.Extends.call t.2 (Call.Select (fd + 1) none (some pw) none t.1))
    generalize t.2.call (Call.Select (fd + 1) none (some pw) none t.1) = s at h1 ⊢
    split
    · simp
    · have h2 := h1.trans (World.Extends.call s.2 (Call.GetsockoptInt fd SOL_SOCKET SO_ERROR))
      generalize s.2.call (Call.GetsockoptInt fd SOL_SOCKET SO_ERROR) = g at h2 ⊢
      have hg : ∀ t, deadline < (g.2.env (t ++ [Call.Now])).val := by
        intro t; rw [h2.1]; exact hpast t
      split
      · simp
      · split_ifs
        · exact ih _ _ hg
        · rw [deadlineCheck_past deadline _ hz hg]
          simp
        · simp

theorem extendsBy_refl (q : Call → Bool) (w : World) : World.ExtendsBy q w w :=
  ⟨rfl, [], by simp, by simp⟩

theorem extendsBy_trans {q : Call → Bool} {w1 w2 w3 : World}
    (h12 : World.ExtendsBy q w1 w2) (h23 : World.ExtendsBy q w2 w3) : World.ExtendsBy q w1 w3 := by
  obtain ⟨e12, r12, t12, q12⟩ := h12
  obtain ⟨e23, r23, t23, q23⟩ := h23
  refine ⟨e23.trans e12, r12 ++ r23, by rw [t23, t12, List.append_assoc], ?_⟩
  intro c hc
  rcases List.mem_append.1 hc with hc | hc
  · exact q12 c hc
  · exact q23 c hc

theorem extendsBy_call (q : Call → Bool) (w : World) (c : Call) (hq : q c = true) :
    World.ExtendsBy q w (w.call c).2 :=
  ⟨rfl, [c], rfl, by simpa using hq⟩

theorem deadlineCheck_polls (deadline : Int) (w : World) :
    World.ExtendsBy Call.isPoll w (deadlineCheck deadline w).2 := by
  unfold deadlineCheck
  split_ifs
  · exact extendsBy_refl _ w
  · exact extendsBy_call _ w _ rfl
  · exact extendsBy_call _ w _ rfl

theorem selectTimeout_polls (P : Platform) (deadline : Int) (w : World) :
    World.ExtendsBy Call.isPoll w (selectTimeout P deadline w).2 := by
  unfold selectTimeout
  split_ifs
  · exact extendsBy_refl _ w
  · exact extendsBy_call _ w _ rfl

/-- The loop of `connect` makes no other calls than those of polling. -/
theorem connectLoop_polls (P : Platform) (fd deadline : Int) (fuel : Nat) (pw : List Nat)
    (w : World) : World.ExtendsBy Call.isPoll w (connectLoop P fd deadline fuel pw w).2 := by
  induction fuel generalizing pw w with
  | zero => exact extendsBy_refl _ w
  | succ fuel ih =>
    have h0 := selectTimeout_polls P deadline w
    unfold connectLoop
    simp only
    generalize selectTimeout P deadline w = t at h0 ⊢
    have h1 := extendsBy_trans h0
      (extendsBy_call Call.isPoll t.2 (Call.Select (fd + 1) none (some pw) none t.1) rfl)
    generalize t.2.call (Call.Select (fd + 1) none (some pw) none t.1) = s at h1 ⊢
    split
    · exact extendsBy_trans h1 (extendsBy_call _ _ _ rfl)
    · have h2 := extendsBy_trans h1
        (extendsBy_call Call.isPoll s.2 (Call.GetsockoptInt fd SOL_SOCKET SO_ERROR) rfl)
      generalize s.2.call (Call.GetsockoptInt fd SOL_SOCKET SO_ERROR) = g at h2 ⊢
      split
      · exact h2
      · split_ifs
        · exact extendsBy_trans h2 (ih _ _)
        · exact extendsBy_trans h2 (deadlineCheck_polls _ _)
        · exact h2

/-- The calls of `connect` are the `Connect` itself and then calls of polling
only: `connect` issues one `Connect` and no `Bind`. -/
theorem connect_polls {P : Platform} {fuel : Nat} {fd : Int} {ra : Option Sockaddr}
    {deadline : Int} {w w1 : World} {o : Outcome (Option GoError)}
    (h : connect P fuel fd ra deadline w = (o, w1)) :
    ∃ rest, w1.trace = w.trace ++ Call.Connect fd ra :: rest ∧ ∀ c ∈ rest, c.isPoll = true := by
  have key : World.ExtendsBy Call.isPoll (w.call (Call.Connect fd ra)).2
      (connect P fuel fd ra deadline w).2 := by
    unfold connect
    simp only
    split_ifs
    · split
      · exact extendsBy_refl _ _
      · exact connectLoop_polls _ _ _ _ _ _
    · exact deadlineCheck_polls _ _
    · exact extendsBy_refl _ _
  rw [h] at key
  obtain ⟨_, rest, hr, hq⟩ := key
  exact ⟨rest, by rw [hr]; simp, hq⟩

theorem not_bind_of_poll (c : Call) (h : c.isPoll = true) :
    c.isBind = false ∧ c.isConnect = false := by
  cases c <;> simp_all [Call.isPoll, Call.isBind, Call.isConnect]

theorem deadlineCheck_past_eq (deadline : Int) (w : World) (hz : deadline ≠ 0)
    (hpast : ∀ t, deadline < (w.env (t ++ [Call.Now])).val) :
    deadlineCheck deadline w
      = (Outcome.returned (some (GoError.timeout errTimeout)), (w.call Call.Now).2) := by
  unfold deadlineCheck
  simp [hz, hpast]

/-- With a deadline that is not zero and lies before every reading of the
clock, a round of the loop that reads 0 or `EISCONN` from `SO_ERROR` returns
the timeout error. -/
theorem connectLoop_past_success (P : Platform) (fd deadline : Int) (hz : deadline ≠ 0)
    (env : List Call → Resp) (hpast : ∀ t, deadline < (env (t ++ [Call.Now])).val)
    (n : Nat) (pw : List Nat) (t : List Call)
    (hS : (env (t ++ [Call.Now, Call.Select (fd + 1) none (some pw) none
      (some (NsecToTimeval P (timeSub deadline (env (t ++ [Call.Now])).val)))])).err = none)
    (hG : (env (t ++ [Call.Now, Call.Select (fd + 1) none (some pw) none
      (some (NsecToTimeval P (timeSub deadline (env (t ++ [Call.Now])).val))),
      Call.GetsockoptInt fd SOL_SOCKET SO_ERROR])).err = none)
    (hN : toUintptr P (env (t ++ [Call.Now, Call.Select (fd + 1) none (some pw) none
        (some (NsecToTimeval P (timeSub deadline (env (t ++ [Call.Now])).val))),
        Call.GetsockoptInt fd SOL_SOCKET SO_ERROR])).val = 0 ∨
      toUintptr P (env (t ++ [Call.Now, Call.Select (fd + 1) none (some pw) none
        (some (NsecToTimeval P (timeSub deadline (env (t ++ [Call.Now])).val))),
        Call.GetsockoptInt fd SOL_SOCKET SO_ERROR])).val = EISCONN) :
    (connectLoop P fd deadline (n + 1) pw { env := env, trace := t }).1
      = Outcome.returned (some (GoError.timeout errTimeout)) := by
  unfold connectLoop
  simp only [selectTimeout, hz, if_false, World.call_resp, World.call_trace, World.call_env,
    List.append_assoc, List.singleton_append, List.cons_append, List.nil_append, hS, hG]
  have hne : ¬ (toUintptr P (env (t ++ [Call.Now, Call.Select (fd + 1) none (some pw) none
        (some (NsecToTimeval P (timeSub deadline (env (t ++ [Call.Now])).val))),
        Call.GetsockoptInt fd SOL_SOCKET SO_ERROR])).val = EINPROGRESS ∨
      toUintptr P (env (t ++ [Call.Now, Call.Select (fd + 1) none (some pw) none
        (some (NsecToTimeval P (timeSub deadline (env (t ++ [Call.Now])).val))),
        Call.GetsockoptInt fd SOL_SOCKET SO_ERROR])).val = EALREADY ∨
      toUintptr P (env (t ++ [Call.Now, Call.Select (fd + 1) none (some pw) none
        (some (NsecToTimeval P (timeSub deadline (env (t ++ [Call.Now])).val))),
        Call.GetsockoptInt fd SOL_SOCKET SO_ERROR])).val = EINTR) := by
    rcases hN with hN | hN <;> rw [hN] <;> simp [EISCONN, EINPROGRESS, EALREADY, EINTR]
  rw [if_neg hne, if_pos hN]
  rw [deadlineCheck_past_eq deadline _ hz (by intro u; exact hpast u)]

/-- With a deadline that is not zero and lies before every reading of the
clock, an error returned by the loop of `connect` is the timeout error after a
success was reported, or the error that the last call reported. -/
theorem connectLoop_past_result (P : Platform) (fd : Int) (ra : Option Sockaddr)
    (deadline : Int) (hz : deadline ≠ 0) (env : List Call → Resp)
    (hpast : ∀ t, deadline < (env (t ++ [Call.Now])).val)
    (fuel : Nat) (pw : List Nat) (t : List Call) (e : GoError)
    (h : (connectLoop P fd deadline fuel pw { env := env, trace := t }).1
      = Outcome.returned (some e)) :
    (e = GoError.timeout errTimeout ∧ SuccessReported P env fd ra
        (connectLoop P fd deadline fuel pw { env := env, trace := t }).2.trace) ∨
      FailureReported P env fd ra
        (connectLoop P fd deadline fuel pw { env := env, trace := t }).2.trace e := by
  induction fuel generalizing pw t with
  | zero => simp [connectLoop] at h
  | succ fuel ih =>
    revert h
    unfold connectLoop
    simp only [selectTimeout, hz, if_false, World.call_resp, World.call_trace, World.call_env]
    split
    · rename_i e1 hS
      intro h
      have he : e1 = e := by simpa using h
      subst he
      right; right; left
      exact ⟨_, _, _, List.append_assoc _ _ _, hS⟩
    · split
      · rename_i e1 hG
        intro h
        have he : e1 = e := by simpa using h
        subst he
        right; right; right
        exact ⟨_, rfl, Or.inl hG⟩
      · rename_i hG
        split_ifs with hp hok
        · intro h
          exact ih _ _ h
        · intro h
          rw [deadlineCheck_past_eq deadline _ hz (by intro u; exact hpast u)] at h ⊢
          have he : GoError.timeout errTimeout = e := by simpa using h
          subst he
          left
          exact ⟨rfl, _, _, List.append_assoc _ _ _, Or.inr ⟨rfl, hG, hok⟩⟩
        · intro h
          simp only [Outcome.returned.injEq, Option.some.injEq] at h
          subst h
          right; right; right
          refine ⟨_, rfl, Or.inr ⟨hG, rfl, ?_, ?_⟩⟩
          · intro h0; exact hok (Or.inl h0)
          · intro h0; exact hok (Or.inr h0)

theorem connect_in_progress_ok (P : Platform) (fuel : Nat) (fd : Int) (ra : Option Sockaddr)
    (deadline : Int) (w : World) (pw : List Nat)
    (hC : (w.env (w.trace ++ [Call.Connect fd ra])).err = some (GoError.errno EINPROGRESS) ∨
      (w.env (w.trace ++ [Call.Connect fd ra])).err = some (GoError.errno EALREADY) ∨
      (w.env (w.trace ++ [Call.Connect fd ra])).err = some (GoError.errno EINTR))
    (hF : FD_SET P (toUintptr P fd) (FdSet.zero P) = Except.ok pw) :
    connect P fuel fd ra deadline w
      = connectLoop P fd deadline fuel pw (w.call (Call.Connect fd ra)).2 := by
  unfold connect
  simp only [World.call_resp, if_pos hC, hF]

theorem connect_in_progress_panic (P : Platform) (fuel : Nat) (fd : Int) (ra : Option Sockaddr)
    (deadline : Int) (w : World) (p : Panic)
    (hC : (w.env (w.trace ++ [Call.Connect fd ra])).err = some (GoError.errno EINPROGRESS) ∨
      (w.env (w.trace ++ [Call.Connect fd ra])).err = some (GoError.errno EALREADY) ∨
      (w.env (w.trace ++ [Call.Connect fd ra])).err = some (GoError.errno EINTR))
    (hF : FD_SET P (toUintptr P fd) (FdSet.zero P) = Except.error p) :
    connect P fuel fd ra deadline w = (Outcome.panicked p, (w.call (Call.Connect fd ra)).2) := by
  unfold connect
  simp only [World.call_resp, if_pos hC, hF]

theorem connect_success_past (P : Platform) (fuel : Nat) (fd : Int) (ra : Option Sockaddr)
    (deadline : Int) (w : World) (hz : deadline ≠ 0)
    (hpast : ∀ t, deadline < (w.env (t ++ [Call.Now])).val)
    (hC : (w.env (w.trace ++ [Call.Connect fd ra])).err = none ∨
      (w.env (w.trace ++ [Call.Connect fd ra])).err = some (GoError.errno EISCONN)) :
    connect P fuel fd ra deadline w
      = (Outcome.returned (some (GoError.timeout errTimeout)),
          ((w.call (Call.Connect fd ra)).2.call Call.Now).2) := by
  have hn : ¬ ((w.env (w.trace ++ [Call.Connect fd ra])).err = some (GoError.errno EINPROGRESS) ∨
      (w.env (w.trace ++ [Call.Connect fd ra])).err = some (GoError.errno EALREADY) ∨
      (w.env (w.trace ++ [Call.Connect fd ra])).err = some (GoError.errno EINTR)) := by
    rcases hC with hC | hC <;> rw [hC] <;> simp [EISCONN, EINPROGRESS, EALREADY, EINTR]
  unfold connect
  simp only [World.call_resp, if_neg hn, if_pos hC]
  exact deadlineCheck_past_eq deadline _ hz (by intro u; exact hpast u)

theorem connect_failure (P : Platform) (fuel : Nat) (fd : Int) (ra : Option Sockaddr)
    (deadline : Int) (w : World) (e : GoError)
    (he : (w.env (w.trace ++ [Call.Connect fd ra])).err = some e)
    (h1 : e ≠ GoError.errno EINPROGRESS) (h2 : e ≠ GoError.errno EALREADY)
    (h3 : e ≠ GoError.errno EINTR) (h4 : e ≠ GoError.errno EISCONN) :
    connect P fuel fd ra deadline w
      = (Outcome.returned (some e), (w.call (Call.Connect fd ra)).2) := by
  unfold connect
  simp only [World.call_resp, he, Option.some.injEq, reduceCtorEq, false_or]
  rw [if_neg (by
    rintro (h | h | h)
    · exact h1 h
    · exact h2 h
    · exact h3 h), if_neg h4]

/-- C3, as stated, fails: with the deadline 50, not zero and before the clock
reading 100, a `Connect` refused with `ECONNREFUSED` makes `connect` return
that error, not the timeout error. -/
theorem connect_past_deadline_refused :
    (50 : Int) ≠ 0 ∧
    (∀ t, (50 : Int) < (envConnectRefused (t ++ [Call.Now])).val) ∧
    (connect linux_amd64 8 3 (some (Sockaddr.inet4 { Port := 443, Addr := [93, 184, 216, 34] }))
        50 (World.init envConnectRefused)).1 = Outcome.returned (some (GoError.errno 111)) ∧
    (connect linux_amd64 8 3 (some (Sockaddr.inet4 { Port := 443, Addr := [93, 184, 216, 34] }))
        50 (World.init envConnectRefused)).1
      ≠ Outcome.returned (some (GoError.timeout errTimeout)) := by
  refine ⟨by decide, ?_, by decide, by decide⟩
  intro t
  simp [envConnectRefused]

/-- C3, amended: with a deadline that is not zero and lies before every reading
of the clock, whatever the system calls answer and however long the loop runs:
`connect` never returns nil; when the `Connect` call itself succeeds or answers
`EISCONN`, it returns `errTimeout`; when `Connect` fails with an error other
than `EINPROGRESS`, `EALREADY`, `EINTR` and `EISCONN`, it returns that error;
when `Connect` answers one of these three, it runs the loop on the set made by
`FD_SET`, and any round of the loop in which `Select` succeeds and `SO_ERROR`
reads 0 or `EISCONN` returns `errTimeout`; every error it returns is
`errTimeout` right after a success was reported, or the error reported by the
last call (`Connect`, `Select`, or the reading of `SO_ERROR`, be it the failure
of the reading or the pending error read).  `Timeout` and `Temporary` of
`errTimeout` are true. -/
theorem connect_past_deadline (P : Platform) (fuel : Nat) (fd : Int) (ra : Option Sockaddr)
    (deadline : Int) (env : List Call → Resp) (hz : deadline ≠ 0)
    (hpast : ∀ t, deadline < (env (t ++ [Call.Now])).val) :
    (connect P fuel fd ra deadline (World.init env)).1 ≠ Outcome.returned none ∧
    (((env [Call.Connect fd ra]).err = none ∨
        (env [Call.Connect fd ra]).err = some (GoError.errno EISCONN)) →
      (connect P fuel fd ra deadline (World.init env)).1
        = Outcome.returned (some (GoError.timeout errTimeout))) ∧
    (∀ e, (env [Call.Connect fd ra]).err = some e →
      e ≠ GoError.errno EINPROGRESS → e ≠ GoError.errno EALREADY → e ≠ GoError.errno EINTR →
      e ≠ GoError.errno EISCONN →
      (connect P fuel fd ra deadline (World.init env)).1 = Outcome.returned (some e)) ∧
    (∀ pw, ((env [Call.Connect fd ra]).err = some (GoError.errno EINPROGRESS) ∨
        (env [Call.Connect fd ra]).err = some (GoError.errno EALREADY) ∨
        (env [Call.Connect fd ra]).err = some (GoError.errno EINTR)) →
      FD_SET P (toUintptr P fd) (FdSet.zero P) = Except.ok pw →
      connect P fuel fd ra deadline (World.init env)
        = connectLoop P fd deadline fuel pw { env := env, trace := [Call.Connect fd ra] }) ∧
    (∀ (n : Nat) (pw : List Nat) (t : List Call),
      (env (t ++ [Call.Now, Call.Select (fd + 1) none (some pw) none
        (some (NsecToTimeval P (timeSub deadline (env (t ++ [Call.Now])).val)))])).err = none →
      (env (t ++ [Call.Now, Call.Select (fd + 1) none (some pw) none
        (some (NsecToTimeval P (timeSub deadline (env (t ++ [Call.Now])).val))),
        Call.GetsockoptInt fd SOL_SOCKET SO_ERROR])).err = none →
      (toUintptr P (env (t ++ [Call.Now, Call.Select (fd + 1) none (some pw) none
          (some (NsecToTimeval P (timeSub deadline (env (t ++ [Call.Now])).val))),
          Call.GetsockoptInt fd SOL_SOCKET SO_ERROR])).val = 0 ∨
        toUintptr P (env (t ++ [Call.Now, Call.Select (fd + 1) none (some pw) none
          (some (NsecToTimeval P (timeSub deadline (env (t ++ [Call.Now])).val))),
          Call.GetsockoptInt fd SOL_SOCKET SO_ERROR])).val = EISCONN) →
      (connectLoop P fd deadline (n + 1) pw { env := env, trace := t }).1
        = Outcome.returned (some (GoError.timeout errTimeout))) ∧
    (∀ e, (connect P fuel fd ra deadline (World.init env)).1 = Outcome.returned (some e) →
      (e = GoError.timeout errTimeout ∧ SuccessReported P env fd ra
          (connect P fuel fd ra deadline (World.init env)).2.trace) ∨
        FailureReported P env fd ra (connect P fuel fd ra deadline (World.init env)).2.trace e) ∧
    errTimeout.Timeout = true ∧ errTimeout.Temporary = true := by
  have hc : ∀ t, deadline <
      (((World.init env).call (Call.Connect fd ra)).2.env (t ++ [Call.Now])).val := hpast
  refine ⟨?_, ?_, ?_, ?_, ?_, ?_, rfl, rfl⟩
  · unfold connect
    simp only
    split_ifs with h1 h2
    · split
      · simp
      · exact connectLoop_past_ne_nil P fd deadline hz fuel _ _ hc
    · rw [deadlineCheck_past deadline _ hz hc]
      simp
    · intro h
      apply h2
      left
      simpa using h
  · intro h
    rw [connect_success_past P fuel fd ra deadline (World.init env) hz hpast h]
  · intro e he h1 h2 h3 h4
    rw [connect_failure P fuel fd ra deadline (World.init env) e he h1 h2 h3 h4]
  · intro pw hC hF
    exact connect_in_progress_ok P fuel fd ra deadline (World.init env) pw hC hF
  · intro n pw t hS hG hN
    exact connectLoop_past_success P fd deadline hz env hpast n pw t hS hG hN
  · intro e h
    by_cases hC : (env [Call.Connect fd ra]).err = some (GoError.errno EINPROGRESS) ∨
        (env [Call.Connect fd ra]).err = some (GoError.errno EALREADY) ∨
        (env [Call.Connect fd ra]).err = some (GoError.errno EINTR)
    · cases hF : FD_SET P (toUintptr P fd) (FdSet.zero P) with
      | error p =>
        rw [connect_in_progress_panic P fuel fd ra deadline (World.init env) p hC hF] at h
        simp at h
      | ok pw =>
        rw [connect_in_progress_ok P fuel fd ra deadline (World.init env) pw hC hF] at h ⊢
        exact connectLoop_past_result P fd ra deadline hz env hpast fuel pw _ e h
    · by_cases hok : (env [Call.Connect fd ra]).err = none ∨
          (env [Call.Connect fd ra]).err = some (GoError.errno EISCONN)
      · rw [connect_success_past P fuel fd ra deadline (World.init env) hz hpast hok] at h ⊢
        have he : GoError.timeout errTimeout = e := by simpa using h
        subst he
        left
        exact ⟨rfl, [], Call.Connect fd ra, rfl, Or.inl ⟨rfl, hok⟩⟩
      · cases he : (env [Call.Connect fd ra]).err with
        | none => exact absurd (Or.inl he) hok
        | some e1 =>
          have h1 : e1 ≠ GoError.errno EINPROGRESS := fun hh => hC (Or.inl (by rw [he, hh]))
          have h2 : e1 ≠ GoError.errno EALREADY :=
            fun hh => hC (Or.inr (Or.inl (by rw [he, hh])))
          have h3 : e1 ≠ GoError.errno EINTR :=
            fun hh => hC (Or.inr (Or.inr (by rw [he, hh])))
          have h4 : e1 ≠ GoError.errno EISCONN := fun hh => hok (Or.inr (by rw [he, hh]))
          rw [connect_failure P fuel fd ra deadline (World.init env) e1 he h1 h2 h3 h4] at h ⊢
          have hee : e1 = e := by simpa using h
          subst hee
          right; left
          exact ⟨[], rfl, he⟩

theorem connect_past_deadline_witness :
    (connect linux_amd64 8 3 (some (Sockaddr.inet4 { Port := 443, Addr := [93, 184, 216, 34] })) 50 (World.init envInProgress)).1 ≠ Outcome.returned none ∧
    (((envInProgress [Call.Connect 3 (some (Sockaddr.inet4 { Port := 443, Addr := [93, 184, 216, 34] }))]).err = none ∨
        (envInProgress [Call.Connect 3 (some (Sockaddr.inet4 { Port := 443, Addr := [93, 184, 216, 34] }))]).err = some (GoError.errno EISCONN)) →
      (connect linux_amd64 8 3 (some (Sockaddr.inet4 { Port := 443, Addr := [93, 184, 216, 34] })) 50 (World.init envInProgress)).1
        = Outcome.returned (some (GoError.timeout errTimeout))) ∧
    (∀ e, (envInProgress [Call.Connect 3 (some (Sockaddr.inet4 { Port := 443, Addr := [93, 184, 216, 34] }))]).err = some e →
      e ≠ GoError.errno EINPROGRESS → e ≠ GoError.errno EALREADY → e ≠ GoError.errno EINTR →
      e ≠ GoError.errno EISCONN →
      (connect linux_amd64 8 3 (some (Sockaddr.inet4 { Port := 443, Addr := [93, 184, 216, 34] })) 50 (World.init envInProgress)).1
        = Outcome.returned (some e)) ∧
    (∀ pw, ((envInProgress [Call.Connect 3 (some (Sockaddr.inet4 { Port := 443, Addr := [93, 184, 216, 34] }))]).err = some (GoError.errno EINPROGRESS) ∨
        (envInProgress [Call.Connect 3 (some (Sockaddr.inet4 { Port := 443, Addr := [93, 184, 216, 34] }))]).err = some (GoError.errno EALREADY) ∨
        (envInProgress [Call.Connect 3 (some (Sockaddr.inet4 { Port := 443, Addr := [93, 184, 216, 34] }))]).err = some (GoError.errno EINTR)) →
      FD_SET linux_amd64 (toUintptr linux_amd64 3) (FdSet.zero linux_amd64) = Except.ok pw →
      connect linux_amd64 8 3 (some (Sockaddr.inet4 { Port := 443, Addr := [93, 184, 216, 34] })) 50 (World.init envInProgress)
        = connectLoop linux_amd64 3 50 8 pw
            { env := envInProgress, trace := [Call.Connect 3 (some (Sockaddr.inet4 { Port := 443, Addr := [93, 184, 216, 34] }))] }) ∧
    (∀ (n : Nat) (pw : List Nat) (t : List Call),
      (envInProgress (t ++ [Call.Now, Call.Select (3 + 1) none (some pw) none
        (some (NsecToTimeval linux_amd64
          (timeSub 50 (envInProgress (t ++ [Call.Now])).val)))])).err = none →
      (envInProgress (t ++ [Call.Now, Call.Select (3 + 1) none (some pw) none
        (some (NsecToTimeval linux_amd64
          (timeSub 50 (envInProgress (t ++ [Call.Now])).val))),
        Call.GetsockoptInt 3 SOL_SOCKET SO_ERROR])).err = none →
      (toUintptr linux_amd64 (envInProgress (t ++ [Call.Now,
          Call.Select (3 + 1) none (some pw) none
            (some (NsecToTimeval linux_amd64
              (timeSub 50 (envInProgress (t ++ [Call.Now])).val))),
          Call.GetsockoptInt 3 SOL_SOCKET SO_ERROR])).val = 0 ∨
        toUintptr linux_amd64 (envInProgress (t ++ [Call.Now,
          Call.Select (3 + 1) none (some pw) none
            (some (NsecToTimeval linux_amd64
              (timeSub 50 (envInProgress (t ++ [Call.Now])).val))),
          Call.GetsockoptInt 3 SOL_SOCKET SO_ERROR])).val = EISCONN) →
      (connectLoop linux_amd64 3 50 (n + 1) pw { env := envInProgress, trace := t }).1
        = Outcome.returned (some (GoError.timeout errTimeout))) ∧
    (∀ e, (connect linux_amd64 8 3 (some (Sockaddr.inet4 { Port := 443, Addr := [93, 184, 216, 34] })) 50 (World.init envInProgress)).1
        = Outcome.returned (some e) →
      (e = GoError.timeout errTimeout ∧ SuccessReported linux_amd64 envInProgress 3 (some (Sockaddr.inet4 { Port := 443, Addr := [93, 184, 216, 34] }))
          (connect linux_amd64 8 3 (some (Sockaddr.inet4 { Port := 443, Addr := [93, 184, 216, 34] })) 50 (World.init envInProgress)).2.trace) ∨
        FailureReported linux_amd64 envInProgress 3 (some (Sockaddr.inet4 { Port := 443, Addr := [93, 184, 216, 34] }))
          (connect linux_amd64 8 3 (some (Sockaddr.inet4 { Port := 443, Addr := [93, 184, 216, 34] })) 50 (World.init envInProgress)).2.trace e) ∧
    errTimeout.Timeout = true ∧ errTimeout.Temporary = true :=
  connect_past_deadline linux_amd64 8 3 (some (Sockaddr.inet4 { Port := 443, Addr := [93, 184, 216, 34] })) 50 envInProgress (by decide)
    (by intro t; simp [envInProgress])

/-- On a non-blocking socket: `Connect` answers `EINPROGRESS`, the first round
of the loop reads 0 from `SO_ERROR`, and with the deadline 50 before the clock
reading 100 `connect` returns the timeout error after the calls listed. -/
theorem connect_past_deadline_in_progress :
    (connect linux_amd64 8 3 (some (Sockaddr.inet4 { Port := 443, Addr := [93, 184, 216, 34] })) 50 (World.init envInProgress)).1
      = Outcome.returned (some (GoError.timeout errTimeout)) ∧
    (connect linux_amd64 8 3 (some (Sockaddr.inet4 { Port := 443, Addr := [93, 184, 216, 34] })) 50 (World.init envInProgress)).2.trace
      = [Call.Connect 3 (some (Sockaddr.inet4 { Port := 443, Addr := [93, 184, 216, 34] })), Call.Now,
         Call.Select 4 none (some [8, 0, 0, 0, 0, 0, 0, 0, 0, 0, 0, 0, 0, 0, 0, 0]) none
           (some { Sec := 0, Usec := 0 }),
         Call.GetsockoptInt 3 SOL_SOCKET SO_ERROR, Call.Now] := by
  refine ⟨by decide, by decide⟩

/-! ## The transparent connection -/

/-- For the network `tcp` and two addresses, the resolver never panics: the
family follows from the local address alone. -/
theorem tcpAddrFamily_tcp (l r : TCPAddr) :
    tcpAddrFamily "tcp" (some l) (some r)
      = Except.ok (if (To4 l.IP).isSome then AF_INET else AF_INET6) := by
  unfold tcpAddrFamily
  have hl : "tcp".toList.getLast? = some 'p' := by decide
  rw [hl]
  by_cases h : (To4 l.IP).isSome = true <;> simp [h]

/-- With a zero deadline, a `Connect` that succeeds at once ends `connect`. -/
theorem connect_zero_ok (P : Platform) (fuel : Nat) (fd : Int) (ra : Option Sockaddr) (w : World)
    (h : (w.env (w.trace ++ [Call.Connect fd ra])).err = none) :
    connect P fuel fd ra 0 w = (Outcome.returned none, (w.call (Call.Connect fd ra)).2) := by
  unfold connect
  simp [h, deadlineCheck_zero]

/-- C1: in every run of `DialOriginalDestination` in which both addresses of
the connection convert and the socket, the four options and, when the flag is
false, the bind succeed, whatever `Connect` and the calls after it answer: the
calls are the socket, the four options, a `Bind` to the address converted from
`RemoteAddr` exactly when the flag is false, the `Connect` to the address
converted from `LocalAddr`, and then no further `Bind` or `Connect`. -/
theorem dial_connects_to_local_binds_remote (P : Platform) (fuel : Nat) (conn : Conn)
    (dontAssumeRemote : Bool) (env : List Call → Resp) (ra la : Sockaddr) (family fd : Int)
    (hra : tcpAddrToSocketAddr conn.LocalAddr = (some ra, none))
    (hla : tcpAddrToSocketAddr conn.RemoteAddr = (some la, none))
    (hfam : tcpAddrFamily "tcp" (some conn.LocalAddr) (some conn.RemoteAddr) = Except.ok family)
    (hs : (env [Call.Socket family SOCK_STREAM IPPROTO_TCP]).err = none)
    (hfd : (env [Call.Socket family SOCK_STREAM IPPROTO_TCP]).val = fd)
    (hopts : ∀ k, k < 4 → (env (Call.Socket family SOCK_STREAM IPPROTO_TCP
        :: (socketOptions fd).take (k + 1))).err = none)
    (hbind : dontAssumeRemote = false → (env (Call.Socket family SOCK_STREAM IPPROTO_TCP
        :: socketOptions fd ++ [Call.Bind fd (some la)])).err = none) :
    ∃ rest,
      (DialOriginalDestination P fuel conn dontAssumeRemote (World.init env)).2.trace
        = Call.Socket family SOCK_STREAM IPPROTO_TCP :: socketOptions fd
          ++ (if dontAssumeRemote = false then [Call.Bind fd (some la)] else [])
          ++ Call.Connect fd (some ra) :: rest ∧
      ∀ c ∈ rest, c.isBind = false ∧ c.isConnect = false := by
  have h1 := hopts 0 (by norm_num)
  have h2 := hopts 1 (by norm_num)
  have h3 := hopts 2 (by norm_num)
  have h4 := hopts 3 (by norm_num)
  simp only [socketOptions, List.take_succ_cons, List.take_zero, List.take_nil, zero_add,
    Nat.reduceAdd] at h1 h2 h3 h4
  have hq : ∀ rest : List Call, (∀ c ∈ rest, c.isPoll = true) →
      ∀ tail : List Call, (∀ c ∈ tail, c.isBind = false ∧ c.isConnect = false) →
      ∀ c ∈ rest ++ tail, c.isBind = false ∧ c.isConnect = false := by
    intro rest hrest tail htail c hc
    rcases List.mem_append.1 hc with hc | hc
    · exact not_bind_of_poll c (hrest c hc)
    · exact htail c hc
  unfold DialOriginalDestination
  rw [hra, hla]
  simp only [hfam, World.call_resp, World.call_trace, World.call_env, World.init,
    List.nil_append, hs, hfd, List.cons_append, h1, h2, h3, h4]
  cases dontAssumeRemote
  · have hb := hbind rfl
    simp only [socketOptions, List.cons_append, List.nil_append] at hb
    simp only [if_true, hb]
    split
    all_goals
      rename_i hc
      obtain ⟨rest, hrest, hpoll⟩ := connect_polls hc
    · exact ⟨rest ++ [], by simp [hrest, socketOptions], hq rest hpoll [] (by simp)⟩
    · exact ⟨rest ++ [], by simp [hrest, socketOptions], hq rest hpoll [] (by simp)⟩
    · exact ⟨rest ++ [Call.Close fd], by simp [hrest, socketOptions],
        hq rest hpoll _ (by simp [Call.isBind, Call.isConnect])⟩
    · split
      · exact ⟨rest ++ [Call.FileConn fd, Call.Close fd, Call.FileClose fd],
          by simp [hrest, socketOptions],
          hq rest hpoll _ (by simp [Call.isBind, Call.isConnect])⟩
      · exact ⟨rest ++ [Call.FileConn fd, Call.FileClose fd], by simp [hrest, socketOptions],
          hq rest hpoll _ (by simp [Call.isBind, Call.isConnect])⟩
  · simp only [Bool.true_eq_false, if_false]
    split
    all_goals
      rename_i hc
      obtain ⟨rest, hrest, hpoll⟩ := connect_polls hc
    · exact ⟨rest ++ [], by simp [hrest, socketOptions], hq rest hpoll [] (by simp)⟩
    · exact ⟨rest ++ [], by simp [hrest, socketOptions], hq rest hpoll [] (by simp)⟩
    · exact ⟨rest ++ [Call.Close fd], by simp [hrest, socketOptions],
        hq rest hpoll _ (by simp [Call.isBind, Call.isConnect])⟩
    · split
      · exact ⟨rest ++ [Call.FileConn fd, Call.Close fd, Call.FileClose fd],
          by simp [hrest, socketOptions],
          hq rest hpoll _ (by simp [Call.isBind, Call.isConnect])⟩
      · exact ⟨rest ++ [Call.FileConn fd, Call.FileClose fd], by simp [hrest, socketOptions],
          hq rest hpoll _ (by simp [Call.isBind, Call.isConnect])⟩

theorem trace_of_connect_eq {P : Platform} {fuel : Nat} {fd : Int} {ra : Option Sockaddr}
    {deadline : Int} {w w1 : World} {o : Outcome (Option GoError)}
    (h : connect P fuel fd ra deadline w = (o, w1)) :
    ∃ rest, w1.trace = w.trace ++ Call.Connect fd ra :: rest := by
  obtain ⟨rest, hrest⟩ := connect_trace P fuel fd ra deadline w
  rw [h] at hrest
  exact ⟨rest, hrest⟩

/-- C2: in a run of `DialOriginalDestination` that creates a socket, either the
four options succeed and the calls begin with the socket and the four options,
in the order reuse-address, mark 255, transparency, non-blocking, any `Bind` or
`Connect` coming after them; or the first option that fails is followed by the
`Close` of the socket alone, no later option, `Bind` or `Connect` is issued,
and an error is returned with no connection. -/
theorem dial_options_in_order (P : Platform) (fuel : Nat) (conn : Conn)
    (dontAssumeRemote : Bool) (env : List Call → Resp) (ra la : Sockaddr) (family fd : Int)
    (hra : tcpAddrToSocketAddr conn.LocalAddr = (some ra, none))
    (hla : tcpAddrToSocketAddr conn.RemoteAddr = (some la, none))
    (hfam : tcpAddrFamily "tcp" (some conn.LocalAddr) (some conn.RemoteAddr) = Except.ok family)
    (hs : (env [Call.Socket family SOCK_STREAM IPPROTO_TCP]).err = none)
    (hfd : (env [Call.Socket family SOCK_STREAM IPPROTO_TCP]).val = fd) :
    ((∀ k, k < 4 → (env (Call.Socket family SOCK_STREAM IPPROTO_TCP
          :: (socketOptions fd).take (k + 1))).err = none) ∧
      ∃ rest, (DialOriginalDestination P fuel conn dontAssumeRemote (World.init env)).2.trace
        = Call.Socket family SOCK_STREAM IPPROTO_TCP :: socketOptions fd ++ rest) ∨
    (∃ k, k < 4 ∧
      (∀ j, j < k → (env (Call.Socket family SOCK_STREAM IPPROTO_TCP
          :: (socketOptions fd).take (j + 1))).err = none) ∧
      (env (Call.Socket family SOCK_STREAM IPPROTO_TCP
          :: (socketOptions fd).take (k + 1))).err ≠ none ∧
      (DialOriginalDestination P fuel conn dontAssumeRemote (World.init env)).2.trace
        = Call.Socket family SOCK_STREAM IPPROTO_TCP :: (socketOptions fd).take (k + 1)
          ++ [Call.Close fd] ∧
      ∃ e, (DialOriginalDestination P fuel conn dontAssumeRemote (World.init env)).1
        = Outcome.returned (none, some e)) := by
  subst hfd
  unfold DialOriginalDestination
  rw [hra, hla]
  simp only [hfam, World.call_resp, World.call_trace, World.call_env, World.init,
    List.nil_append, hs, List.cons_append]
  cases h1 : (env [Call.Socket family SOCK_STREAM IPPROTO_TCP, Call.SetsockoptInt
      (env [Call.Socket family SOCK_STREAM IPPROTO_TCP]).val SOL_SOCKET SO_REUSEADDR 1]).err with
  | some e1 =>
    right
    refine ⟨0, by norm_num, by intro j hj; omega, by simp [socketOptions, h1], ?_, ?_⟩
    · simp [socketOptions]
    · exact ⟨_, rfl⟩
  | none =>
  simp only []
  cases h2 : (env [Call.Socket family SOCK_STREAM IPPROTO_TCP, Call.SetsockoptInt
      (env [Call.Socket family SOCK_STREAM IPPROTO_TCP]).val SOL_SOCKET SO_REUSEADDR 1,
      Call.SetsockoptInt (env [Call.Socket family SOCK_STREAM IPPROTO_TCP]).val SOL_SOCKET
        SO_MARK 255]).err with
  | some e2 =>
    right
    refine ⟨1, by norm_num, ?_, by simp [socketOptions, h2], ?_, ?_⟩
    · intro j hj
      interval_cases j
      simpa [socketOptions] using h1
    · simp [socketOptions]
    · exact ⟨_, rfl⟩
  | none =>
  simp only []
  cases h3 : (env [Call.Socket family SOCK_STREAM IPPROTO_TCP, Call.SetsockoptInt
      (env [Call.Socket family SOCK_STREAM IPPROTO_TCP]).val SOL_SOCKET SO_REUSEADDR 1,
      Call.SetsockoptInt (env [Call.Socket family SOCK_STREAM IPPROTO_TCP]).val SOL_SOCKET
        SO_MARK 255,
      Call.SetsockoptInt (env [Call.Socket family SOCK_STREAM IPPROTO_TCP]).val SOL_IP
        IP_TRANSPARENT 1]).err with
  | some e3 =>
    right
    refine ⟨2, by norm_num, ?_, by simp [socketOptions, h3], ?_, ?_⟩
    · intro j hj
      interval_cases j
      · simpa [socketOptions] using h1
      · simpa [socketOptions] using h2
    · simp [socketOptions]
    · exact ⟨_, rfl⟩
  | none =>
  simp only []
  cases h4 : (env [Call.Socket family SOCK_STREAM IPPROTO_TCP, Call.SetsockoptInt
      (env [Call.Socket family SOCK_STREAM IPPROTO_TCP]).val SOL_SOCKET SO_REUSEADDR 1,
      Call.SetsockoptInt (env [Call.Socket family SOCK_STREAM IPPROTO_TCP]).val SOL_SOCKET
        SO_MARK 255,
      Call.SetsockoptInt (env [Call.Socket family SOCK_STREAM IPPROTO_TCP]).val SOL_IP
        IP_TRANSPARENT 1,
      Call.SetNonblock (env [Call.Socket family SOCK_STREAM IPPROTO_TCP]).val true]).err with
  | some e4 =>
    right
    refine ⟨3, by norm_num, ?_, by simp [socketOptions, h4], ?_, ?_⟩
    · intro j hj
      interval_cases j
      · simpa [socketOptions] using h1
      · simpa [socketOptions] using h2
      · simpa [socketOptions] using h3
    · simp [socketOptions]
    · exact ⟨_, rfl⟩
  | none =>
  simp only []
  left
  constructor
  · intro k hk
    interval_cases k
    · simpa [socketOptions] using h1
    · simpa [socketOptions] using h2
    · simpa [socketOptions] using h3
    · simpa [socketOptions] using h4
  · cases dontAssumeRemote
    · simp only [if_true]
      split
      · exact ⟨_, by simp [socketOptions]; rfl⟩
      · split
        all_goals
          rename_i hc
          obtain ⟨rest, hrest⟩ := trace_of_connect_eq hc
        · exact ⟨_, by simp [hrest, socketOptions]; rfl⟩
        · exact ⟨_, by simp [hrest, socketOptions]; rfl⟩
        · exact ⟨_, by simp [hrest, socketOptions]; rfl⟩
        · split
          · exact ⟨_, by simp [hrest, socketOptions]; rfl⟩
          · exact ⟨_, by simp [hrest, socketOptions]; rfl⟩
    · simp only [Bool.true_eq_false, if_false]
      split
      all_goals
        rename_i hc
        obtain ⟨rest, hrest⟩ := trace_of_connect_eq hc
      · exact ⟨_, by simp [hrest, socketOptions]; rfl⟩
      · exact ⟨_, by simp [hrest, socketOptions]; rfl⟩
      · exact ⟨_, by simp [hrest, socketOptions]; rfl⟩
      · split
        · exact ⟨_, by simp [hrest, socketOptions]; rfl⟩
        · exact ⟨_, by simp [hrest, socketOptions]; rfl⟩

theorem conn_none_of_error {x e : GoError} {c : Option Int}
    (h : Outcome.returned ((none : Option Int), some x) = Outcome.returned (c, some e)) :
    c = none := by
  injection h with h
  injection h with h1 _
  exact h1.symm

/-- C5: when a run of `DialOriginalDestination` that created a socket returns
an error, the connection returned is nil and the calls end with the `Close` of
the descriptor, followed at most by the deferred close of the file made from
it. -/
theorem dial_error_closes_descriptor (P : Platform) (fuel : Nat) (conn : Conn)
    (dontAssumeRemote : Bool) (env : List Call → Resp) (ra la : Sockaddr) (family fd : Int)
    (c : Option Int) (e : GoError)
    (hra : tcpAddrToSocketAddr conn.LocalAddr = (some ra, none))
    (hla : tcpAddrToSocketAddr conn.RemoteAddr = (some la, none))
    (hfam : tcpAddrFamily "tcp" (some conn.LocalAddr) (some conn.RemoteAddr) = Except.ok family)
    (hs : (env [Call.Socket family SOCK_STREAM IPPROTO_TCP]).err = none)
    (hfd : (env [Call.Socket family SOCK_STREAM IPPROTO_TCP]).val = fd)
    (herr : (DialOriginalDestination P fuel conn dontAssumeRemote (World.init env)).1
      = Outcome.returned (c, some e)) :
    c = none ∧
    ∃ pre, (DialOriginalDestination P fuel conn dontAssumeRemote (World.init env)).2.trace
          = pre ++ [Call.Close fd] ∨
        (DialOriginalDestination P fuel conn dontAssumeRemote (World.init env)).2.trace
          = pre ++ [Call.Close fd, Call.FileClose fd] := by
  subst hfd
  generalize hr : DialOriginalDestination P fuel conn dontAssumeRemote (World.init env) = r
    at herr ⊢
  unfold DialOriginalDestination at hr
  rw [hra, hla] at hr
  simp only [hfam, World.call_resp, World.call_trace, World.call_env, World.init,
    List.nil_append, hs, List.cons_append] at hr
  split at hr
  · subst hr; exact ⟨conn_none_of_error herr, _, Or.inl rfl⟩
  split at hr
  · subst hr; exact ⟨conn_none_of_error herr, _, Or.inl rfl⟩
  split at hr
  · subst hr; exact ⟨conn_none_of_error herr, _, Or.inl rfl⟩
  split at hr
  · subst hr; exact ⟨conn_none_of_error herr, _, Or.inl rfl⟩
  split at hr
  · subst hr; exact ⟨conn_none_of_error herr, _, Or.inl rfl⟩
  split at hr
  · subst hr; simp at herr
  · subst hr; simp at herr
  · subst hr; exact ⟨conn_none_of_error herr, _, Or.inl rfl⟩
  split at hr
  · subst hr
    refine ⟨conn_none_of_error herr, ?_⟩
    simp only [World.call_trace]
    exact ⟨_, Or.inr (List.append_assoc _ _ _)⟩
  · subst hr; simp at herr

theorem dial_connects_to_local_binds_remote_witness :
    ∃ rest,
      (DialOriginalDestination linux_amd64 8 scenarioConn false
          (World.init envInProgress)).2.trace
        = Call.Socket AF_INET SOCK_STREAM IPPROTO_TCP :: socketOptions 3
          ++ (if false = false
            then [Call.Bind 3 (some (Sockaddr.inet4 { Port := 51000, Addr := [10, 0, 0, 5] }))]
            else [])
          ++ Call.Connect 3 (some (Sockaddr.inet4 { Port := 443, Addr := [93, 184, 216, 34] }))
            :: rest ∧
      ∀ c ∈ rest, c.isBind = false ∧ c.isConnect = false :=
  dial_connects_to_local_binds_remote linux_amd64 8 scenarioConn false envInProgress
    (Sockaddr.inet4 { Port := 443, Addr := [93, 184, 216, 34] })
    (Sockaddr.inet4 { Port := 51000, Addr := [10, 0, 0, 5] }) AF_INET 3
    (by decide) (by decide) (by decide) (by decide) (by decide)
    (by intro k hk; interval_cases k <;> decide) (by intro _; decide)

/-- The scenario of the specification on a non-blocking socket: `Connect`
answers `EINPROGRESS`, the loop waits with `Select` and reads 0 from
`SO_ERROR`, and the dial returns a connection; with the flag false the socket
is bound to 10.0.0.5:51000 before it connects to 93.184.216.34:443, with the
flag true it is not bound. -/
theorem dial_scenario_in_progress :
    (DialOriginalDestination linux_amd64 8 scenarioConn false (World.init envInProgress)).1
      = Outcome.returned (some 3, none) ∧
    (DialOriginalDestination linux_amd64 8 scenarioConn false (World.init envInProgress)).2.trace
      = Call.Socket AF_INET SOCK_STREAM IPPROTO_TCP :: socketOptions 3
        ++ [Call.Bind 3 (some (Sockaddr.inet4 { Port := 51000, Addr := [10, 0, 0, 5] })),
          Call.Connect 3 (some (Sockaddr.inet4 { Port := 443, Addr := [93, 184, 216, 34] })),
          Call.Select 4 none (some [8, 0, 0, 0, 0, 0, 0, 0, 0, 0, 0, 0, 0, 0, 0, 0]) none none,
          Call.GetsockoptInt 3 SOL_SOCKET SO_ERROR, Call.FileConn 3, Call.FileClose 3] ∧
    (DialOriginalDestination linux_amd64 8 scenarioConn true (World.init envInProgress)).2.trace
      = Call.Socket AF_INET SOCK_STREAM IPPROTO_TCP :: socketOptions 3
        ++ [Call.Connect 3 (some (Sockaddr.inet4 { Port := 443, Addr := [93, 184, 216, 34] })),
          Call.Select 4 none (some [8, 0, 0, 0, 0, 0, 0, 0, 0, 0, 0, 0, 0, 0, 0, 0]) none none,
          Call.GetsockoptInt 3 SOL_SOCKET SO_ERROR, Call.FileConn 3, Call.FileClose 3] := by
  refine ⟨by decide, by decide, by decide⟩

theorem dial_options_in_order_witness :
    ((∀ k, k < 4 → (envAllOk (Call.Socket AF_INET SOCK_STREAM IPPROTO_TCP
          :: (socketOptions 3).take (k + 1))).err = none) ∧
      ∃ rest, (DialOriginalDestination linux_amd64 8 scenarioConn false
          (World.init envAllOk)).2.trace
        = Call.Socket AF_INET SOCK_STREAM IPPROTO_TCP :: socketOptions 3 ++ rest) ∨
    (∃ k, k < 4 ∧
      (∀ j, j < k → (envAllOk (Call.Socket AF_INET SOCK_STREAM IPPROTO_TCP
          :: (socketOptions 3).take (j + 1))).err = none) ∧
      (envAllOk (Call.Socket AF_INET SOCK_STREAM IPPROTO_TCP
          :: (socketOptions 3).take (k + 1))).err ≠ none ∧
      (DialOriginalDestination linux_amd64 8 scenarioConn false (World.init envAllOk)).2.trace
        = Call.Socket AF_INET SOCK_STREAM IPPROTO_TCP :: (socketOptions 3).take (k + 1)
          ++ [Call.Close 3] ∧
      ∃ e, (DialOriginalDestination linux_amd64 8 scenarioConn false (World.init envAllOk)).1
        = Outcome.returned (none, some e)) :=
  dial_options_in_order linux_amd64 8 scenarioConn false envAllOk
    (Sockaddr.inet4 { Port := 443, Addr := [93, 184, 216, 34] })
    (Sockaddr.inet4 { Port := 51000, Addr := [10, 0, 0, 5] }) AF_INET 3
    (by decide) (by decide) (by decide) (by decide) (by decide)

theorem dial_error_closes_descriptor_witness :
    (none : Option Int) = none ∧
    ∃ pre, (DialOriginalDestination linux_amd64 8 scenarioConn false
          (World.init envConnectRefused)).2.trace = pre ++ [Call.Close 3] ∨
        (DialOriginalDestination linux_amd64 8 scenarioConn false
          (World.init envConnectRefused)).2.trace = pre ++ [Call.Close 3, Call.FileClose 3] :=
  dial_error_closes_descriptor linux_amd64 8 scenarioConn false envConnectRefused
    (Sockaddr.inet4 { Port := 443, Addr := [93, 184, 216, 34] })
    (Sockaddr.inet4 { Port := 51000, Addr := [10, 0, 0, 5] }) AF_INET 3
    none (dialError "socket connect" (GoError.errno 111))
    (by decide) (by decide) (by decide) (by decide) (by decide) (by decide)

/-! ## The transparent listener -/

/-- C4, on the code: when the listener (object 5) is made, its file (7) is
obtained and setting `IP_TRANSPARENT` on it fails, `ListenTCP` returns an error
and no listener, and its calls are the four listed: the file is closed, the
listener is not. -/
theorem ListenTCP_leaves_listener_open :
    (ListenTCP "tcp" (some { IP := [0, 0, 0, 0], Port := 1080, Zone := "" })
        (World.init envSetsockoptFails)).1
      = (none, some (listenError "tcp" "set socket option: IP_TRANSPARENT" (GoError.errno 1))) ∧
    (ListenTCP "tcp" (some { IP := [0, 0, 0, 0], Port := 1080, Zone := "" })
        (World.init envSetsockoptFails)).2.trace
      = [Call.NetListenTCP "tcp" (some { IP := [0, 0, 0, 0], Port := 1080, Zone := "" }),
         Call.ListenerFile 5, Call.SetsockoptInt 7 SOL_IP IP_TRANSPARENT 1, Call.FileClose 7] ∧
    Call.ListenerClose 5 ∉ (ListenTCP "tcp" (some { IP := [0, 0, 0, 0], Port := 1080, Zone := "" })
        (World.init envSetsockoptFails)).2.trace := by
  refine ⟨by decide, by decide, by decide⟩

/-- On no path does `ListenTCP` close a listener. -/
theorem ListenTCP_never_closes_listener (network : String) (laddr : Option TCPAddr)
    (env : List Call → Resp) (l : Int) :
    Call.ListenerClose l ∉ (ListenTCP network laddr (World.init env)).2.trace := by
  unfold ListenTCP
  simp only [World.call_resp, World.init, List.nil_append]
  split
  · simp
  · split
    · simp
    · split <;> simp

/-- The method `Close` of a `Listener` does close the listener it wraps. -/
theorem Listener_Close_trace (listener : Listener) (w : World) :
    (listener.Close w).2.trace = w.trace ++ [Call.ListenerClose listener.base] := rfl

end Tproxy
